import Mathlib

/-!
Verification of the taskmaster_mcp session-memory engine.

This file is a shallow embedding, in Lean 4, of the memory ingestion and
relevance-ranking engine of the repository (src/search-operations.ts,
src/utils.ts, and the AI-operations module), together with theorems about
the embedded definitions.

Modelling conventions:
* JavaScript IEEE-754 numbers are modelled as exact rationals (`ℚ`).
  Where a division by zero produces `NaN` in JavaScript and the value is
  only ever used in comparisons that `NaN` fails, the rational convention
  `x / 0 = 0` produces the same comparison results; these spots are noted.
* `Math.sqrt` and `Math.log` are transcendental; they are abstracted as
  explicit function parameters (`msqrt`, `mlog : ℚ → ℚ`).  Every theorem
  below quantifies over them, so it holds for the actual interpretations.
* `Date.now()` is an explicit parameter `now : Int` (epoch milliseconds),
  and ISO `created` timestamps are modelled as epoch milliseconds.
* `randomUUID()` is modelled by explicit `freshId` / `freshSession`
  parameters (at most one fresh identifier is consumed per call).
* The network collaborators (embedding / chat backends) are abstracted as
  oracles `genEmbed : String → Option (List ℚ)` (the whole fail-soft
  embedding gateway `generateAIEmbedding`) and
  `metaOracle : String → Option MemoryMetadata` (the AI call inside
  `extractContentMetadata`; `none` models the catch/fallback path).
* `toLocaleDateString()` is locale dependent and abstracted as a
  parameter `fmtDate : Int → String`.
* Persistent storage is modelled as the list of stored memories;
  `loadSessionMemories` models load-plus-sort (newest first), and
  `saveSessionMemoriesState` models the 50-entry truncation applied by
  `saveSessionMemories` before writing.
* JavaScript string/array library semantics (split on regular-expression
  character classes, `Set` insertion order, stable `sort`, `Object`
  insertion order) are reproduced by the helper functions below.
-/

set_option maxRecDepth 8000

namespace TM

/-! ## JavaScript string and collection helpers -/

/-- The JavaScript regex class `\w` (ASCII word character). -/
def isWordChar (c : Char) : Bool := c.isAlphanum || c == '_'

/-- The JavaScript regex class `\s`, restricted to the ASCII whitespace
characters that occur in this code base. -/
def isSpaceChar (c : Char) : Bool :=
  c == ' ' || c == '\t' || c == '\n' || c == '\r'

/-- Separator class `[\s\-_,\.]` used by `preprocessQuery`. -/
def isQuerySepChar (c : Char) : Bool :=
  isSpaceChar c || c == '-' || c == '_' || c == ',' || c == '.'

/-- Sentence separator class `[.!?]`. -/
def isSentenceSepChar (c : Char) : Bool := c == '.' || c == '!' || c == '?'

/-- `s.toLowerCase()` (ASCII). -/
def lowerStr (s : String) : String := String.mk (s.data.map Char.toLower)

/-- `s.toUpperCase()` (ASCII). -/
def upperStr (s : String) : String := String.mk (s.data.map Char.toUpper)

/-- `s.replace(/[^\w\s]/g, ' ')`. -/
def replaceNonWordWithSpace (s : String) : String :=
  String.mk (s.data.map (fun c => if isWordChar c || isSpaceChar c then c else ' '))

/-- `s.replace(/[^\w]/g, '')` (deletion). -/
def stripNonWord (s : String) : String :=
  String.mk (s.data.filter isWordChar)

/-- `s.replace(/[^\w\s]/g, '')` (deletion). -/
def stripNonWordNonSpace (s : String) : String :=
  String.mk (s.data.filter (fun c => isWordChar c || isSpaceChar c))

/-- `s.substring(0, n)`. -/
def substrPrefix (s : String) (n : Nat) : String := String.mk (s.data.take n)

/-- `s.charAt(0).toUpperCase() + s.slice(1)`. -/
def capitalizeFirst (s : String) : String :=
  match s.data with
  | [] => ""
  | c :: rest => String.mk (c.toUpper :: rest)

/-- `s.trim()` (structural; drops whitespace from both ends). -/
def jsTrim (s : String) : String :=
  String.mk (((s.data.dropWhile Char.isWhitespace).reverse.dropWhile Char.isWhitespace).reverse)

/-- Does `l` start with `pre`? -/
def listStartsWith : List Char → List Char → Bool
  | [], _ => true
  | _ :: _, [] => false
  | a :: as, b :: bs => a == b && listStartsWith as bs

/-- First index at which `sub` occurs in `l`, if any. -/
def idxAux (sub : List Char) : List Char → Option Nat
  | [] => if listStartsWith sub [] then some 0 else none
  | c :: t =>
    if listStartsWith sub (c :: t) then some 0
    else (idxAux sub t).map (· + 1)

/-- `s.includes(sub)`. -/
def includesStr (s sub : String) : Bool := (idxAux sub.data s.data).isSome

/-- `s.indexOf(sub)` (−1 when absent). -/
def indexOfStr (s sub : String) : Int :=
  match idxAux sub.data s.data with
  | some n => (n : Int)
  | none => -1

/-- Worker for `jsSplit`.  The second argument is `some cur` while a
segment `cur` (reversed) is being built, and `none` directly after a
separator character (so that a run of separators yields one split). -/
def jsSplitGo (p : Char → Bool) : List Char → Option (List Char) → List String
  | [], some cur => [String.mk cur.reverse]
  | [], none => [""]
  | c :: cs, some cur =>
    if p c then String.mk cur.reverse :: jsSplitGo p cs none
    else jsSplitGo p cs (some (c :: cur))
  | c :: cs, none =>
    if p c then jsSplitGo p cs none
    else jsSplitGo p cs (some [c])

/-- `s.split(re)` where `re` matches a non-empty run of characters
satisfying `p` (such as `/\s+/`): leading and trailing runs contribute
empty segments, interior runs split exactly once. -/
def jsSplit (p : Char → Bool) (s : String) : List String :=
  jsSplitGo p s.data (some [])

/-- Worker for `splitChar`. -/
def splitCharGo (sep : Char) : List Char → List Char → List String
  | [], cur => [String.mk cur.reverse]
  | c :: cs, cur =>
    if c == sep then String.mk cur.reverse :: splitCharGo sep cs []
    else splitCharGo sep cs (c :: cur)

/-- `s.split(sep)` for a single-character separator string (splits at
every occurrence, so consecutive separators yield empty segments). -/
def splitChar (sep : Char) (s : String) : List String := splitCharGo sep s.data []

/-- The maximal `\w`-runs of `s` (the words a `\b…\b` regex can match). -/
def wordRuns (s : String) : List String :=
  (jsSplit (fun c => !isWordChar c) s).filter (fun w => w != "")

/-- Number of matches of `new RegExp("\\b" ++ term ++ "\\b", "gi")` in
`content`, for a `term` consisting of word characters only, as the
search path guarantees by stripping its terms (`preprocessQuery` maps
each term through `replace(/[^\w]/g, '')`, possibly down to the empty
string).  A non-empty such term matches exactly the maximal word runs
equal to it; the empty term yields the pattern `\b\b` = `\b`, whose
global match list has one (empty) entry at each of the two boundaries of
every word run.  A term that is *not* sanitized this way can make the
`RegExp` constructor itself throw, so the one source site that
interpolates raw terms (`calculateEnhancedClusterRelevance`) is modelled
with an explicit regex oracle instead of this function. -/
def countWordMatches (content term : String) : Nat :=
  if term = "" then 2 * (wordRuns content).length
  else (wordRuns content).countP (fun w => w == term)

/-- `Set` insertion: append `x` unless already present (JavaScript `Set`
keeps first-insertion order). -/
def jsSetAdd [DecidableEq α] (acc : List α) (x : α) : List α :=
  if x ∈ acc then acc else acc ++ [x]

/-- `Array.from(new Set(l))`: deduplicate keeping first occurrences. -/
def jsSetList [DecidableEq α] (l : List α) : List α :=
  l.foldl jsSetAdd []

/-- Stable insertion for `sortDescBy` (an element moves before `x` only
when its key is strictly larger, which reproduces the stable JavaScript
`sort((a, b) => key(b) - key(a))`). -/
def insertDescBy [LinearOrder K] (key : α → K) (m : α) : List α → List α
  | [] => [m]
  | x :: xs => if key x ≤ key m then m :: x :: xs else x :: insertDescBy key m xs

/-- Stable sort by non-increasing key, modelling the stable JavaScript
`Array.prototype.sort` with comparator `(a, b) => key(b) - key(a)`. -/
def sortDescBy [LinearOrder K] (key : α → K) (l : List α) : List α :=
  l.foldr (insertDescBy key) []

/-- Bump the count of `w` in an ordered association list, appending a new
entry when absent (JavaScript object insertion order). -/
def bumpCount [DecidableEq α] (w : α) : List (α × Nat) → List (α × Nat)
  | [] => [(w, 1)]
  | (x, n) :: rest =>
    if x = w then (x, n + 1) :: rest else (x, n) :: bumpCount w rest

/-- `Object.entries` of a frequency object built by successive increments:
pairs in first-occurrence order with their multiplicities. -/
def countsList [DecidableEq α] (ws : List α) : List (α × Nat) :=
  ws.foldl (fun acc w => bumpCount w acc) []

/-- Fuel-indexed Levenshtein distance.  The recurrence is the one the
source's dynamic-programming matrix computes
(`matrix[j][i] = min(del, ins, subst)`); the fuel argument only serves
structural recursion and is unreachable when the fuel is at least
`xs.length + ys.length`. -/
def levFuel : Nat → List Char → List Char → Nat
  | _, [], ys => ys.length
  | _, x :: xs, [] => (x :: xs).length
  | 0, _ :: _, _ :: _ => 0
  | fuel + 1, x :: xs, y :: ys =>
    min (min (levFuel fuel (x :: xs) ys + 1) (levFuel fuel xs (y :: ys) + 1))
      (levFuel fuel xs ys + (if x == y then 0 else 1))

/-- `calculateEditDistance` (search-operations.ts): classic edit
distance. -/
def calculateEditDistance (str1 str2 : String) : Nat :=
  levFuel (str1.length + str2.length) str1.data str2.data

/-- `levenshteinDistance` (utils.ts): the identical dynamic program. -/
def levenshteinDistance (str1 str2 : String) : Nat :=
  levFuel (str1.length + str2.length) str1.data str2.data

/-- `calculateStringSimilarity` (utils.ts). -/
def calculateStringSimilarity (str1 str2 : String) : ℚ :=
  let longer := if str1.length > str2.length then str1 else str2
  let shorter := if str1.length > str2.length then str2 else str1
  if longer.length = 0 then 1
  else ((longer.length : ℚ) - (levenshteinDistance longer shorter : ℚ)) / (longer.length : ℚ)

/-- Minimum of a list of integers (`Math.min(...dates)`); `0` for the
empty list, which the source never reaches. -/
def listMinInt : List Int → Int
  | [] => 0
  | x :: xs => xs.foldl min x

/-- Maximum of a list of integers (`Math.max(...dates)`). -/
def listMaxInt : List Int → Int
  | [] => 0
  | x :: xs => xs.foldl max x

/-! ## Data model (types.ts) -/

/-- The `metadata` annotation of a session memory. -/
structure MemoryMetadata where
  category : String
  topics : List String
  entities : List String
  keyActions : List String
  domain : String
deriving DecidableEq

/-- `SessionMemory` (types.ts); `created` is modelled as epoch ms. -/
structure SessionMemory where
  id : String
  content : String
  created : Int
  session_id : String
  embedding : Option (List ℚ)
  embedding_model : Option String
  metadata : Option MemoryMetadata
deriving DecidableEq

/-- `Memory` (types.ts); the source's category union type is carried as a
string, which is how the clustering code consumes it. -/
structure Memory where
  id : String
  content : String
  category : String
  created : Int
  tags : List String
deriving DecidableEq

/-- `MemoryCluster` (types.ts). -/
structure MemoryCluster where
  theme : String
  memories : List Memory
  keyTerms : List String
  synthesizedContent : String
  relevanceScore : ℚ
  category : String
deriving DecidableEq

/-- `SessionMemorySearchResult` (search-operations.ts). -/
structure SessionMemorySearchResult where
  memory : SessionMemory
  relevanceScore : ℚ
  matchedTerms : List String
  usedEmbeddings : Bool
deriving DecidableEq

/-- The intermediate per-memory record of `performEnhancedSearch`
(a search result extended with the five component scores). -/
structure ScoredSearchResult where
  memory : SessionMemory
  relevanceScore : ℚ
  matchedTerms : List String
  usedEmbeddings : Bool
  semanticScore : ℚ
  keywordScore : ℚ
  contextScore : ℚ
  temporalScore : ℚ
  metadataScore : ℚ
deriving DecidableEq

/-- Query intent classes of `preprocessQuery`. -/
inductive QueryIntent
  | factual | procedural | temporal | conceptual | diagnostic
deriving DecidableEq

/-- Query focus classes of `preprocessQuery`. -/
inductive QueryFocus
  | specific | broad | contextual
deriving DecidableEq

/-- Temporal-context classes of `preprocessQuery`. -/
inductive QueryTemporalContext
  | recent | historical | any
deriving DecidableEq

/-- Technical-level classes of `preprocessQuery`. -/
inductive TechnicalLevel
  | basic | intermediate | advanced
deriving DecidableEq

/-- Result record of `preprocessQuery`. -/
structure ProcessedQuery where
  originalQuery : String
  enhancedQuery : String
  queryTerms : List String
  expandedTerms : List String
  intent : QueryIntent
  focus : QueryFocus
  temporalContext : QueryTemporalContext
  technicalLevel : TechnicalLevel
  domainHints : List String
deriving DecidableEq

/-! ## Query analysis (search-operations.ts, `preprocessQuery` and helpers) -/

/-- Stop-word set of `preprocessQuery`. -/
def stopWordsList : List String :=
  ["a", "an", "and", "are", "as", "at", "be", "by", "for", "from", "has", "he", "in", "is", "it",
   "its", "of", "on", "that", "the", "to", "was", "were", "will", "with", "would", "could", "should"]

/-- The `expansionMap` of `expandQueryTerms`, in declaration order. -/
def expansionMapList : List (String × List String) :=
  [("api", ["endpoint", "service", "interface", "rest", "graphql", "webhook"]),
   ("auth", ["authentication", "authorization", "login", "security", "token", "oauth", "jwt"]),
   ("db", ["database", "data", "storage", "persistence", "sql", "nosql", "mongo", "postgres"]),
   ("config", ["configuration", "settings", "setup", "environment", "env", "variables"]),
   ("deploy", ["deployment", "production", "release", "publish", "build", "ci/cd"]),
   ("test", ["testing", "spec", "validation", "verify", "unit", "integration", "e2e"]),
   ("bug", ["error", "issue", "problem", "fix", "debug", "troubleshoot", "exception"]),
   ("perf", ["performance", "optimization", "speed", "efficiency", "latency", "throughput"]),
   ("ui", ["interface", "frontend", "component", "design", "user", "experience", "ux"]),
   ("backend", ["server", "service", "api", "microservice", "architecture"]),
   ("meeting", ["discussion", "call", "conference", "sync", "standup", "review"]),
   ("project", ["work", "task", "initiative", "feature", "development"]),
   ("plan", ["strategy", "roadmap", "approach", "timeline", "schedule"]),
   ("decision", ["choice", "selection", "determination", "resolution", "conclusion"]),
   ("analysis", ["evaluation", "assessment", "review", "examination", "study"]),
   ("implement", ["build", "create", "develop", "code", "construct"]),
   ("learn", ["study", "understand", "research", "explore", "investigate"]),
   ("solve", ["fix", "resolve", "address", "handle", "tackle"]),
   ("improve", ["enhance", "optimize", "refactor", "upgrade", "better"])]

/-- `expandQueryTerms` (search-operations.ts): a `Set` seeded with the
query terms, extended by direct, reverse and (for long terms) substring
expansions, returned in insertion order. -/
def expandQueryTerms (queryTerms : List String) : List String :=
  queryTerms.foldl (fun acc term =>
    let acc :=
      match (expansionMapList.find? (fun p => p.1 == term)).map (·.2) with
      | some synonyms => synonyms.foldl jsSetAdd acc
      | none => acc
    let acc := expansionMapList.foldl (fun acc p =>
      if p.2.contains term then p.2.foldl jsSetAdd (jsSetAdd acc p.1) else acc) acc
    if term.length > 6 then
      expansionMapList.foldl (fun acc p =>
        if includesStr p.1 term || includesStr term p.1 then
          p.2.foldl jsSetAdd (jsSetAdd acc p.1)
        else acc) acc
    else acc)
    (jsSetList queryTerms)

/-- Indicator-phrase lists of `analyzeQueryIntent`, in check order. -/
def intentIndicatorGroups : List (QueryIntent × List String) :=
  [(.factual, ["what", "who", "where", "which", "is", "are", "was", "were"]),
   (.procedural, ["how", "why", "when", "steps", "process", "method", "approach", "way"]),
   (.temporal, ["recent", "last", "latest", "current", "new", "today", "yesterday", "ago"]),
   (.conceptual, ["concept", "idea", "pattern", "strategy", "design", "architecture", "principle"]),
   (.diagnostic, ["problem", "issue", "error", "bug", "fix", "solve", "debug", "troubleshoot"])]

/-- `analyzeQueryIntent` (search-operations.ts): the intent whose
indicator list has the strictly largest number of substring hits wins;
the initial best is `factual`. -/
def analyzeQueryIntent (queryLower : String) : QueryIntent :=
  (intentIndicatorGroups.foldl (fun acc p =>
    let score := p.2.countP (fun term => includesStr queryLower term)
    if acc.1 < score then (score, p.1) else acc)
    (0, QueryIntent.factual)).2

/-- `determineQueryFocus` (search-operations.ts). -/
def determineQueryFocus (queryTerms : List String) (queryLower : String) : QueryFocus :=
  if queryTerms.length ≥ 3 && queryTerms.any (fun t => t.length > 8) then .specific
  else if ["related", "similar", "like", "compared", "versus", "difference", "between"].any
      (fun ind => includesStr queryLower ind) then .contextual
  else .broad

/-- `analyzeTemporalContext` (search-operations.ts). -/
def analyzeTemporalContext (queryLower : String) : QueryTemporalContext :=
  if ["recent", "latest", "new", "current", "today", "yesterday", "this week"].any
      (fun ind => includesStr queryLower ind) then .recent
  else if ["old", "previous", "past", "before", "earlier", "last month", "last year"].any
      (fun ind => includesStr queryLower ind) then .historical
  else .any

/-- `assessTechnicalLevel` (search-operations.ts). -/
def assessTechnicalLevel (queryTerms : List String) (queryLower : String) : TechnicalLevel :=
  if ["start", "begin", "intro", "basic", "simple", "easy"].any
      (fun t => includesStr queryLower t) then .basic
  else if ["architecture", "optimization", "scaling", "performance", "security", "enterprise",
      "production"].any (fun t => includesStr queryLower t) || queryTerms.length > 5 then .advanced
  else .intermediate

/-- The `domainMap` of `extractDomainHints`, in declaration order. -/
def domainMapList : List (String × List String) :=
  [("web", ["html", "css", "javascript", "react", "vue", "angular", "frontend", "browser"]),
   ("backend", ["server", "api", "database", "node", "python", "java", "microservice"]),
   ("mobile", ["ios", "android", "react-native", "flutter", "mobile", "app"]),
   ("devops", ["docker", "kubernetes", "ci/cd", "deployment", "infrastructure", "cloud"]),
   ("data", ["database", "sql", "analytics", "etl", "pipeline", "warehouse"]),
   ("security", ["auth", "encryption", "vulnerability", "penetration", "security"]),
   ("design", ["ui", "ux", "design", "prototype", "wireframe", "mockup"]),
   ("business", ["requirements", "stakeholder", "meeting", "project", "timeline"]),
   ("testing", ["test", "qa", "automation", "selenium", "jest", "cypress"])]

/-- `extractDomainHints` (search-operations.ts). -/
def extractDomainHints (queryTerms : List String) (queryLower : String) : List String :=
  domainMapList.foldl (fun acc p =>
    if p.2.any (fun term => queryTerms.contains term || includesStr queryLower term) then
      jsSetAdd acc p.1
    else acc) []

/-- Rendering of a query intent as the string the source interpolates. -/
def intentToString : QueryIntent → String
  | .factual => "factual"
  | .procedural => "procedural"
  | .temporal => "temporal"
  | .conceptual => "conceptual"
  | .diagnostic => "diagnostic"

/-- `createEnhancedQuery` (search-operations.ts). -/
def createEnhancedQuery (originalQuery : String) (expandedTerms : List String)
    (intent : QueryIntent) (domainHints : List String) : String :=
  let enhanced :=
    if intent ≠ .factual then intentToString intent ++ " query: " ++ originalQuery
    else originalQuery
  let enhanced :=
    if domainHints ≠ [] then enhanced ++ " (domains: " ++ String.intercalate ", " domainHints ++ ")"
    else enhanced
  let keyExpanded :=
    (expandedTerms.filter (fun term => !includesStr (lowerStr originalQuery) term)).take 5
  if keyExpanded ≠ [] then enhanced ++ " related: " ++ String.intercalate ", " keyExpanded
  else enhanced

/-- `preprocessQuery` (search-operations.ts). -/
def preprocessQuery (query : String) : ProcessedQuery :=
  let originalQuery := jsTrim query
  let queryLower := lowerStr originalQuery
  let queryTerms :=
    ((jsSplit isQuerySepChar queryLower).filter
      (fun term => term.length > 2 && !stopWordsList.contains term)).map stripNonWord
  let expandedTerms := expandQueryTerms queryTerms
  let intent := analyzeQueryIntent queryLower
  let focus := determineQueryFocus queryTerms queryLower
  let temporalContext := analyzeTemporalContext queryLower
  let technicalLevel := assessTechnicalLevel queryTerms queryLower
  let domainHints := extractDomainHints queryTerms queryLower
  let enhancedQuery := createEnhancedQuery originalQuery expandedTerms intent domainHints
  { originalQuery, enhancedQuery, queryTerms, expandedTerms, intent, focus,
    temporalContext, technicalLevel, domainHints }

/-! ## Scoring (search-operations.ts and ai-operations) -/

/-- `calculateEmbeddingSimilarity` (ai-operations): cosine similarity of
two embedding vectors, with `Math.sqrt` abstracted as `msqrt`. -/
def calculateEmbeddingSimilarity (msqrt : ℚ → ℚ) (embedding1 embedding2 : List ℚ) : ℚ :=
  if embedding1.length ≠ embedding2.length || embedding1.length = 0 then 0
  else
    let dotProduct := (List.zipWith (· * ·) embedding1 embedding2).sum
    let magnitude1 := msqrt ((embedding1.map (fun a => a * a)).sum)
    let magnitude2 := msqrt ((embedding2.map (fun b => b * b)).sum)
    if magnitude1 = 0 || magnitude2 = 0 then 0
    else dotProduct / (magnitude1 * magnitude2)

/-- `calculateEnhancedKeywordScore` (search-operations.ts).  `content`
and `originalQuery` arrive already lowercased, as at the call site. -/
def calculateEnhancedKeywordScore (content : String) (queryTerms expandedTerms : List String)
    (originalQuery : String) : ℚ :=
  let exactPhrase : ℚ := if includesStr content originalQuery then 50 else 0
  let allTerms : ℚ :=
    if queryTerms.all (fun term => includesStr content term) && queryTerms.length > 1 then 40
    else 0
  let perTerm : ℚ :=
    (queryTerms.map (fun term =>
      let n := countWordMatches content term
      if n = 0 then (0 : ℚ)
      else
        15 + min ((n : ℚ) * 3) 10 +
        (let firstIndex := indexOfStr content term
         if (firstIndex : ℚ) < (content.length : ℚ) * 0.1 then (5 : ℚ)
         else if (firstIndex : ℚ) < (content.length : ℚ) * 0.3 then 3 else 0) +
        min (term.length : ℚ) 8)).sum
  let expandedBonus : ℚ :=
    (expandedTerms.map (fun term =>
      if !queryTerms.contains term && includesStr content term then (5 : ℚ) else 0)).sum
  let partialBonus : ℚ :=
    (queryTerms.map (fun queryTerm =>
      if queryTerm.length > 4 then
        ((jsSplit isSpaceChar content).map (fun word =>
          if word.length > 4 && word != queryTerm then
            (if includesStr word queryTerm || includesStr queryTerm word then (3 : ℚ) else 0) +
            (if calculateEditDistance word queryTerm ≤ 2 then (2 : ℚ) else 0)
          else 0)).sum
      else (0 : ℚ))).sum
  exactPhrase + allTerms + perTerm + expandedBonus + partialBonus

/-- The `intentMap` of `calculateContextScore`. -/
def contextIntentIndicators : QueryIntent → List String
  | .factual => ["is", "was", "has", "contains", "includes", "defined"]
  | .procedural => ["how", "step", "process", "method", "implement", "create"]
  | .temporal => ["when", "date", "time", "recent", "current", "last"]
  | .conceptual => ["concept", "idea", "approach", "strategy", "design"]
  | .diagnostic => ["problem", "issue", "error", "fix", "solve", "debug"]

/-- `calculateContextScore` (search-operations.ts). -/
def calculateContextScore (memory : SessionMemory) (intent : QueryIntent)
    (domainHints : List String) : ℚ :=
  let content := lowerStr memory.content
  let intentScore : ℚ :=
    ((contextIntentIndicators intent).countP (fun term => includesStr content term) : ℚ) * 8
  let domainScore : ℚ :=
    (domainHints.map (fun domain =>
      (if includesStr content domain then (10 : ℚ) else 0) +
      (match memory.metadata with
       | some md => if md.domain = domain then (15 : ℚ) else 0
       | none => 0))).sum
  let categoryScore : ℚ :=
    match memory.metadata with
    | none => 0
    | some md =>
      if md.category = "decision" then (if intent = .factual then 10 else 5)
      else if md.category = "implementation" then (if intent = .procedural then 10 else 5)
      else if md.category = "problem-solving" then (if intent = .diagnostic then 10 else 5)
      else if md.category = "learning" then (if intent = .conceptual then 10 else 5)
      else 0
  intentScore + domainScore + categoryScore

/-- `calculateTemporalScore` (search-operations.ts); `now` replaces
`Date.now()`. -/
def calculateTemporalScore (now : Int) (memory : SessionMemory)
    (temporalContext : QueryTemporalContext) : ℚ :=
  let daysSince : ℚ := ((now - memory.created : Int) : ℚ) / 86400000
  match temporalContext with
  | .recent =>
    if daysSince < 1 then 20
    else if daysSince < 7 then 15
    else if daysSince < 30 then 10
    else 0
  | .historical =>
    if daysSince > 90 then 15
    else if daysSince > 30 then 10
    else 5
  | .any =>
    if daysSince < 1 then 10
    else if daysSince < 7 then 8
    else if daysSince < 30 then 5
    else if daysSince < 90 then 3
    else 1

/-- `calculateMetadataScore` (search-operations.ts). -/
def calculateMetadataScore (memory : SessionMemory) (processedQuery : ProcessedQuery) : ℚ :=
  match memory.metadata with
  | none => 0
  | some md =>
    let topicMatches := md.topics.countP (fun topic =>
      processedQuery.expandedTerms.any (fun term =>
        includesStr (lowerStr topic) term || includesStr term (lowerStr topic)))
    let entityMatches := md.entities.countP (fun entity =>
      processedQuery.queryTerms.any (fun term =>
        includesStr (lowerStr entity) term || includesStr term (lowerStr entity)))
    let actionMatches := md.keyActions.countP (fun action =>
      processedQuery.expandedTerms.contains (lowerStr action))
    let techBonus : ℚ :=
      if processedQuery.technicalLevel = .advanced && md.domain = "technology" then 5 else 0
    (topicMatches : ℚ) * 6 + (entityMatches : ℚ) * 8 + (actionMatches : ℚ) * 5 + techBonus

/-- The adaptive weight vector of `combineScores`. -/
structure ScoreWeights where
  semantic : ℚ
  keyword : ℚ
  context : ℚ
  temporal : ℚ
  metadata : ℚ
deriving DecidableEq

/-- `combineScores` (search-operations.ts). -/
def combineScores (semantic keyword context temporal metadata : ℚ)
    (processedQuery : ProcessedQuery) : ℚ :=
  let w : ScoreWeights :=
    { semantic := 0.35, keyword := 0.30, context := 0.15, temporal := 0.10, metadata := 0.10 }
  let w :=
    match processedQuery.focus with
    | .specific =>
      { w with keyword := w.keyword + 0.10, semantic := w.semantic - 0.05,
               metadata := w.metadata + 0.05 }
    | .contextual =>
      { w with semantic := w.semantic + 0.10, context := w.context + 0.10,
               keyword := w.keyword - 0.10 }
    | .broad => w
  let w :=
    if processedQuery.temporalContext ≠ .any then
      { w with temporal := w.temporal + 0.10, semantic := w.semantic - 0.05,
               keyword := w.keyword - 0.05 }
    else w
  let w :=
    if processedQuery.domainHints ≠ [] then
      { w with context := w.context + 0.05, metadata := w.metadata + 0.05,
               keyword := w.keyword - 0.05, semantic := w.semantic - 0.05 }
    else w
  semantic * w.semantic + keyword * w.keyword + context * w.context +
    temporal * w.temporal + metadata * w.metadata

/-- `extractMatchedTerms` (search-operations.ts). -/
def extractMatchedTerms (content : String) (queryTerms expandedTerms : List String) :
    List String :=
  let matched := queryTerms.foldl (fun acc term =>
    if includesStr content term then jsSetAdd acc term else acc) []
  let matched := expandedTerms.foldl (fun acc term =>
    if includesStr content term && !queryTerms.contains term then jsSetAdd acc term else acc)
    matched
  let matched := if matched = [] then ["semantic match"] else matched
  matched.take 8

/-- `performEnhancedSearch` (search-operations.ts): the per-memory score
vector and combined relevance. -/
def performEnhancedSearch (msqrt : ℚ → ℚ) (now : Int) (memories : List SessionMemory)
    (processedQuery : ProcessedQuery) (queryEmbedding : Option (List ℚ))
    (usedEmbeddings : Bool) : List ScoredSearchResult :=
  memories.map (fun memory =>
    let contentLower := lowerStr memory.content
    let semanticScore : ℚ :=
      match queryEmbedding, memory.embedding with
      | some qe, some me => calculateEmbeddingSimilarity msqrt qe me * 100
      | _, _ => 0
    let keywordScore := calculateEnhancedKeywordScore contentLower processedQuery.queryTerms
      processedQuery.expandedTerms (lowerStr processedQuery.originalQuery)
    let contextScore := calculateContextScore memory processedQuery.intent
      processedQuery.domainHints
    let temporalScore := calculateTemporalScore now memory processedQuery.temporalContext
    let metadataScore := calculateMetadataScore memory processedQuery
    let relevanceScore := combineScores semanticScore keywordScore contextScore temporalScore
      metadataScore processedQuery
    let matchedTerms := extractMatchedTerms contentLower processedQuery.queryTerms
      processedQuery.expandedTerms
    { memory, relevanceScore, matchedTerms, usedEmbeddings, semanticScore, keywordScore,
      contextScore, temporalScore, metadataScore })

/-! ## Ranking and deduplication (search-operations.ts) -/

/-- `determineRelevanceThreshold` (search-operations.ts). -/
def determineRelevanceThreshold (results : List ScoredSearchResult)
    (processedQuery : ProcessedQuery) : ℚ :=
  if results.isEmpty then 0
  else
    let scores := sortDescBy id (results.map (·.relevanceScore))
    let maxScore := scores.headD 0
    let avgScore := (results.map (·.relevanceScore)).sum / (results.length : ℚ)
    let baseThreshold : ℚ :=
      if processedQuery.focus = .broad then 10
      else if processedQuery.focus = .specific then 25
      else 15
    if maxScore > avgScore * 3 then max baseThreshold (avgScore * 0.3)
    else baseThreshold

/-- `calculateAdvancedContentSimilarity` (search-operations.ts).  When
both word sets are empty the JavaScript code produces `NaN`, which fails
every comparison it is used in; the rational convention `0 / 0 = 0`
yields the same comparison outcomes. -/
def calculateAdvancedContentSimilarity (content1 content2 : String)
    (processedQuery : ProcessedQuery) : ℚ :=
  let words1 := jsSetList ((jsSplit isSpaceChar (lowerStr content1)).filter
    (fun w => w.length > 3))
  let words2 := jsSetList ((jsSplit isSpaceChar (lowerStr content2)).filter
    (fun w => w.length > 3))
  let intersection := words1.filter (fun w => words2.contains w)
  let wordSimilarity : ℚ :=
    (intersection.length : ℚ) / (max words1.length words2.length : ℚ)
  let relevantWords1 := words1.filter (fun word =>
    processedQuery.expandedTerms.any (fun term =>
      includesStr word term || includesStr term word))
  let relevantWords2 := words2.filter (fun word =>
    processedQuery.expandedTerms.any (fun term =>
      includesStr word term || includesStr term word))
  let relevantIntersection := relevantWords1.filter (fun w => relevantWords2.contains w)
  let relevantSimilarity : ℚ :=
    if relevantWords1.length > 0 && relevantWords2.length > 0 then
      (relevantIntersection.length : ℚ) / (max relevantWords1.length relevantWords2.length : ℚ)
    else 0
  wordSimilarity * 0.6 + relevantSimilarity * 0.4

/-- The per-pair drop test of `deduplicateResults`: the candidate is
discarded against an accepted result on near-duplicate same-session
content, or on similar content with a more than 10% lower score. -/
def dedupDropCheck (processedQuery : ProcessedQuery)
    (current existing : ScoredSearchResult) : Bool :=
  let similarity := calculateAdvancedContentSimilarity current.memory.content
    existing.memory.content processedQuery
  (decide (similarity > 0.85) && current.memory.session_id == existing.memory.session_id) ||
  (decide (similarity > 0.75) &&
    decide (current.relevanceScore < existing.relevanceScore * 0.9))

/-- Accumulating loop of `deduplicateResults`. -/
def dedupGo (processedQuery : ProcessedQuery) (acc : List ScoredSearchResult) :
    List ScoredSearchResult → List ScoredSearchResult
  | [] => acc
  | current :: rest =>
    if acc.any (dedupDropCheck processedQuery current) then dedupGo processedQuery acc rest
    else dedupGo processedQuery (acc ++ [current]) rest

/-- `deduplicateResults` (search-operations.ts). -/
def deduplicateResults (results : List ScoredSearchResult)
    (processedQuery : ProcessedQuery) : List ScoredSearchResult :=
  match results with
  | [] => []
  | [r] => [r]
  | r :: rest => dedupGo processedQuery [r] rest

/-- `deduplicated[0]?.relevanceScore || 1`: JavaScript `||` takes the
right operand on `undefined` and on the falsy score `0`. -/
def headScoreOrOne (results : List ScoredSearchResult) : ℚ :=
  match results.head? with
  | none => 1
  | some r => if r.relevanceScore = 0 then 1 else r.relevanceScore

/-- `rankAndFilterResults` (search-operations.ts). -/
def rankAndFilterResults (searchResults : List ScoredSearchResult)
    (processedQuery : ProcessedQuery) (limit : Nat) : List SessionMemorySearchResult :=
  let threshold := determineRelevanceThreshold searchResults processedQuery
  let filtered := searchResults.filter (fun r => decide (threshold ≤ r.relevanceScore))
  if filtered.isEmpty && !searchResults.isEmpty then
    ((sortDescBy (·.relevanceScore) searchResults).take (min 2 limit)).map (fun r =>
      { memory := r.memory, relevanceScore := max (r.relevanceScore / 100) 0.1,
        matchedTerms := r.matchedTerms, usedEmbeddings := r.usedEmbeddings })
  else
    let sorted := sortDescBy (·.relevanceScore) filtered
    let deduplicated := deduplicateResults sorted processedQuery
    let maxScore := headScoreOrOne deduplicated
    (deduplicated.take limit).map (fun r =>
      { memory := r.memory, relevanceScore := r.relevanceScore / maxScore,
        matchedTerms := r.matchedTerms, usedEmbeddings := r.usedEmbeddings })

/-! ## Memory store and search entry point -/

/-- `loadSessionMemories` (memory-operations): load and sort newest
first.  The stored state is the list itself; an absent or unparsable
file corresponds to the empty list. -/
def loadSessionMemories (stored : List SessionMemory) : List SessionMemory :=
  sortDescBy (·.created) stored

/-- The 50-entry truncation `saveSessionMemories` applies before
persisting. -/
def saveSessionMemoriesState (memories : List SessionMemory) : List SessionMemory :=
  memories.take 50

/-- `searchSessionMemories` (search-operations.ts).  `msqrt` models
`Math.sqrt`, `genEmbed` the embedding gateway, `now` the clock and
`stored` the persisted collection. -/
def searchSessionMemories (msqrt : ℚ → ℚ) (genEmbed : String → Option (List ℚ)) (now : Int)
    (stored : List SessionMemory) (query : String) (limit : Nat) :
    List SessionMemorySearchResult :=
  let memories := loadSessionMemories stored
  if memories.isEmpty then []
  else if jsTrim query = "" then
    (memories.take limit).map (fun memory =>
      { memory, relevanceScore := 1, matchedTerms := [], usedEmbeddings := false })
  else
    let processedQuery := preprocessQuery query
    let queryEmbedding := genEmbed processedQuery.enhancedQuery
    let usedEmbeddings := queryEmbedding.isSome
    let searchResults := performEnhancedSearch msqrt now memories processedQuery queryEmbedding
      usedEmbeddings
    rankAndFilterResults searchResults processedQuery limit

/-- Whether a given search takes the below-threshold fallback branch of
`rankAndFilterResults` (no candidate reached the acceptance threshold on
a non-empty query against a non-empty store). -/
def searchFellBack (msqrt : ℚ → ℚ) (genEmbed : String → Option (List ℚ)) (now : Int)
    (stored : List SessionMemory) (query : String) : Bool :=
  let memories := loadSessionMemories stored
  if memories.isEmpty then false
  else if jsTrim query = "" then false
  else
    let processedQuery := preprocessQuery query
    let queryEmbedding := genEmbed processedQuery.enhancedQuery
    let searchResults := performEnhancedSearch msqrt now memories processedQuery queryEmbedding
      queryEmbedding.isSome
    let threshold := determineRelevanceThreshold searchResults processedQuery
    (searchResults.filter (fun r => decide (threshold ≤ r.relevanceScore))).isEmpty &&
      !searchResults.isEmpty

/-! ## Ingestion pipeline (memory-operations / search-operations.ts) -/

/-- The default embedding-model identifier (`AI_EMBEDDING_MODEL`). -/
def aiEmbeddingModel : String := "mistral-embed"

/-- The memory categories of `analyzeMemoryContent`. -/
inductive MemoryCategory
  | discovery | decision | implementation | problem_solving | learning | planning | reflection
deriving DecidableEq

/-- Rendering of a memory category as its source string. -/
def categoryToString : MemoryCategory → String
  | .discovery => "discovery"
  | .decision => "decision"
  | .implementation => "implementation"
  | .problem_solving => "problem_solving"
  | .learning => "learning"
  | .planning => "planning"
  | .reflection => "reflection"

/-- The `categoryIndicators` table of `analyzeMemoryContent`. -/
def categoryIndicators : MemoryCategory → List String
  | .discovery =>
    ["discovered", "found", "realized", "noticed", "learned that", "figured out", "breakthrough"]
  | .decision =>
    ["decided", "chose", "selected", "picked", "went with", "concluded", "determined"]
  | .implementation =>
    ["implemented", "built", "created", "developed", "coded", "added", "integrated"]
  | .problem_solving =>
    ["fixed", "solved", "resolved", "debugged", "troubleshot", "worked around", "issue"]
  | .learning =>
    ["learned", "understood", "grasped", "studied", "researched", "explored", "investigated"]
  | .planning =>
    ["planning", "will", "going to", "next steps", "roadmap", "strategy", "approach"]
  | .reflection =>
    ["thinking", "considering", "reflecting", "analyzing", "reviewing", "evaluating"]

/-- Iteration order of `Object.keys(categoryIndicators)`. -/
def categoryOrder : List MemoryCategory :=
  [.discovery, .decision, .implementation, .problem_solving, .learning, .planning, .reflection]

/-- Number of indicator phrases of `cat` contained in the (lowercased)
content. -/
def categoryHits (lowerContent : String) (cat : MemoryCategory) : Nat :=
  (categoryIndicators cat).countP (fun indicator => includesStr lowerContent indicator)

/-- `determineCategory` (nested in `analyzeMemoryContent`): running
argmax over the category order, updating only on strictly more matches,
initialised with `(0, reflection)`. -/
def determineCategory (lowerContent : String) : MemoryCategory :=
  (categoryOrder.foldl (fun acc cat =>
    let hits := categoryHits lowerContent cat
    if acc.1 < hits then (hits, cat) else acc)
    (0, MemoryCategory.reflection)).2

/-- Complexity classes of `analyzeMemoryContent`. -/
inductive MemoryComplexity
  | simple | moderate | complex
deriving DecidableEq

/-- Result record of `analyzeMemoryContent`. -/
structure MemoryAnalysis where
  category : MemoryCategory
  importance : ℚ
  themes : List String
  keyInsights : List String
  emotionalWeight : ℚ
  complexity : MemoryComplexity
  actionItems : List String
  connections : List String
deriving DecidableEq

/-- `extractMemoryThemes` (memory-operations). -/
def extractMemoryThemes (content : String) : List String :=
  let technicalTerms :=
    ["authentication", "database", "api", "frontend", "backend", "security", "performance",
     "testing", "deployment", "architecture", "design", "user interface", "user experience",
     "integration", "configuration", "optimization", "debugging", "documentation"]
  let foundThemes := technicalTerms.filter (fun term => includesStr (lowerStr content) term)
  let words := (jsSplit isSpaceChar (lowerStr content)).filter (fun w => w.length > 4)
  let wordFreq := countsList words
  let frequentWords :=
    ((sortDescBy (fun p => p.2)
      (wordFreq.filter (fun p =>
        p.2 > 1 &&
          !(["that", "this", "with", "from", "they", "were", "been"].contains p.1)))).take
      3).map (·.1)
  (foundThemes ++ frequentWords).take 5

/-- `extractKeyInsights` (memory-operations). -/
def extractKeyInsights (content : String) (category : MemoryCategory) : List String :=
  let sentences := (jsSplit isSentenceSepChar content).filter (fun s => (jsTrim s).length > 20)
  let insights :=
    match category with
    | .decision => sentences.filter (fun s =>
        includesStr (lowerStr s) "because" || includesStr (lowerStr s) "reason" ||
        includesStr (lowerStr s) "decided")
    | .discovery => sentences.filter (fun s =>
        includesStr (lowerStr s) "found" || includesStr (lowerStr s) "discovered" ||
        includesStr (lowerStr s) "realized")
    | .problem_solving => sentences.filter (fun s =>
        includesStr (lowerStr s) "solution" || includesStr (lowerStr s) "fixed" ||
        includesStr (lowerStr s) "resolved")
    | _ => sentences.filter (fun s =>
        ["implementation", "approach", "strategy", "important", "key"].any
          (fun term => includesStr (lowerStr s) term))
  (insights.take 3).map jsTrim

/-- `extractActionItems` (memory-operations). -/
def extractActionItems (content : String) : List String :=
  let actionIndicators := ["need to", "should", "will", "todo", "next", "plan to", "going to"]
  let sentences := (jsSplit isSentenceSepChar content).filter (fun s => (jsTrim s).length > 15)
  ((sentences.filter (fun sentence =>
    actionIndicators.any (fun indicator => includesStr (lowerStr sentence) indicator))).take
    3).map jsTrim

/-- `identifyPotentialConnections` (memory-operations). -/
def identifyPotentialConnections (content : String) : List String :=
  let connectionTerms :=
    ["similar to", "like when", "as before", "previously", "earlier", "related to",
     "connects to", "builds on", "follows from", "same as", "different from"]
  let lowerContent := lowerStr content
  let connections := connectionTerms.filter (fun term => includesStr lowerContent term)
  let topics := extractMemoryThemes content
  (jsSetList (connections ++ topics)).take 5

/-- `analyzeMemoryContent` (memory-operations). -/
def analyzeMemoryContent (content : String) : MemoryAnalysis :=
  let lowerContent := lowerStr content
  let category := determineCategory lowerContent
  let importantTerms :=
    ["architecture", "security", "performance", "scalability", "user experience", "critical",
     "major", "significant"]
  let importance : ℚ :=
    0.5 + (importantTerms.countP (fun term => includesStr lowerContent term) : ℚ) * 0.1
  let importance :=
    importance + (if category = .decision || category = .problem_solving then (0.2 : ℚ) else 0)
  let importance := importance + (if category = .discovery then (0.15 : ℚ) else 0)
  let importance := importance + (if content.length > 200 then (0.1 : ℚ) else 0)
  let importance := importance + (if content.length > 500 then (0.1 : ℚ) else 0)
  let importance := min importance 1
  let themes := extractMemoryThemes content
  let keyInsights := extractKeyInsights content category
  let emotionalIndicators :=
    ["excited", "frustrated", "breakthrough", "challenge", "success", "failure", "important",
     "critical"]
  let emotionalWeight :=
    min (importance +
      (emotionalIndicators.countP (fun ind => includesStr lowerContent ind) : ℚ) * 0.1) 1
  let complexity : MemoryComplexity :=
    if content.length > 300 then .complex
    else if content.length > 100 then .moderate
    else .simple
  let actionItems := extractActionItems content
  let connections := identifyPotentialConnections content
  { category, importance, themes, keyInsights, emotionalWeight, complexity, actionItems,
    connections }

/-- `processMemoryContentSimple` (memory-operations). -/
def processMemoryContentSimple (content : String) (analysis : MemoryAnalysis) : String :=
  if analysis.importance > 0.8 then content
  else if analysis.importance > 0.6 &&
      !includesStr (lowerStr content) (categoryToString analysis.category) then
    "[" ++ upperStr (categoryToString analysis.category) ++ "] " ++ content
  else content

/-- The word set a content string contributes to the consolidation
word-overlap check (words longer than 3 characters, deduplicated). -/
def overlapWords (content : String) : List String :=
  jsSetList ((jsSplit isSpaceChar (lowerStr content)).filter (fun w => w.length > 3))

/-- The word-overlap similarity of the consolidation check:
`|common| / max(|wordsA|, |wordsB|)` over the two word sets. -/
def wordOverlapSimilarity (newContent existingContent : String) : ℚ :=
  let newContentWords := overlapWords newContent
  let existingWords := overlapWords existingContent
  let commonWords := newContentWords.filter (fun w => existingWords.contains w)
  (commonWords.length : ℚ) / (max newContentWords.length existingWords.length : ℚ)

/-- `shouldConsolidateMemory` (memory-operations): the first memory from
the last 30 minutes whose word-overlap similarity with the new content
exceeds 0.7, if any. -/
def shouldConsolidateMemory (now : Int) (newContent : String)
    (existingMemories : List SessionMemory) : Option SessionMemory :=
  if existingMemories.isEmpty then none
  else
    let recentMemories := existingMemories.filter (fun memory =>
      decide ((((now - memory.created : Int) : ℚ) / 60000) < 30))
    if recentMemories.isEmpty then none
    else
      recentMemories.find? (fun memory =>
        decide (wordOverlapSimilarity newContent memory.content > 0.7))

/-- `manageMemoryCapacitySimple` (memory-operations). -/
def manageMemoryCapacitySimple (memories : List SessionMemory) : List SessionMemory :=
  if memories.length ≤ 40 then memories
  else (sortDescBy (·.created) memories).take 35

/-- `extractBasicTopics` (ai-operations fallback). -/
def extractBasicTopics (content : String) : List String :=
  let words := jsSplit isSpaceChar (lowerStr content)
  let topicWords := words.filter (fun word =>
    word.length > 4 &&
    !(["that", "this", "with", "from", "they", "were", "been", "have", "will", "would", "could",
       "should"].contains word))
  ((sortDescBy (fun p => p.2) (countsList topicWords)).take 5).map (·.1)

/-- `extractBasicActions` (ai-operations fallback). -/
def extractBasicActions (content : String) : List String :=
  let actionWords :=
    ["implemented", "built", "created", "developed", "designed", "planned", "analyzed",
     "researched", "learned", "studied", "discovered", "found", "solved", "fixed", "improved",
     "optimized", "decided", "chose", "selected", "completed", "finished", "started", "began",
     "organized", "managed", "coordinated", "collaborated", "discussed", "presented", "wrote",
     "documented"]
  (actionWords.filter (fun action => includesStr (lowerStr content) action)).take 3

/-- `extractContentMetadata` (ai-operations): the AI call is the oracle
`metaOracle`; `none` models a failed or malformed response, which falls
back to the basic analysis. -/
def extractContentMetadata (metaOracle : String → Option MemoryMetadata)
    (content : String) : MemoryMetadata :=
  match metaOracle content with
  | some md => md
  | none =>
    { category := "general", topics := extractBasicTopics content, entities := [],
      keyActions := extractBasicActions content, domain := "general" }

/-- `generateSessionId` (memory-operations): continue the most recent
session when it is under 30 minutes old, otherwise mint `freshSession`. -/
def generateSessionId (freshSession : String) (now : Int)
    (stored : List SessionMemory) : String :=
  match loadSessionMemories stored with
  | [] => freshSession
  | lastMemory :: _ =>
    if now - lastMemory.created < 30 * 60 * 1000 then lastMemory.session_id
    else freshSession

/-- `consolidateMemories` (memory-operations): merge `newContent` into
`targetMemory`, refresh its timestamp, re-embed (falling back to the
prior embedding), replace it in the collection and persist.  Returns the
merged memory together with the persisted collection. -/
def consolidateMemories (genEmbed : String → Option (List ℚ)) (now : Int)
    (stored : List SessionMemory) (targetMemory : SessionMemory) (newContent : String) :
    SessionMemory × List SessionMemory :=
  let consolidatedContent :=
    targetMemory.content ++ "\n\n--- CONTINUED ---\n\n" ++ newContent
  let newEmbedding := genEmbed consolidatedContent
  let updatedMemory : SessionMemory :=
    { targetMemory with
      content := consolidatedContent
      created := now
      embedding := match newEmbedding with | some e => some e | none => targetMemory.embedding
      embedding_model :=
        match newEmbedding with
        | some _ => some aiEmbeddingModel
        | none => targetMemory.embedding_model }
  let allMemories := loadSessionMemories stored
  let updatedMemories := allMemories.map (fun memory =>
    if memory.id = targetMemory.id then updatedMemory else memory)
  (updatedMemory, saveSessionMemoriesState updatedMemories)

/-- `saveSessionMemory` (memory-operations): validate, analyze, either
consolidate into a recent similar memory or create a new entry, apply
capacity management, persist.  Returns the saved memory and the
persisted collection; the error value models the thrown validation
error (nothing has been written at that point). -/
def saveSessionMemory (genEmbed : String → Option (List ℚ))
    (metaOracle : String → Option MemoryMetadata) (freshId freshSession : String) (now : Int)
    (stored : List SessionMemory) (content : String) :
    Except String (SessionMemory × List SessionMemory) :=
  if (jsTrim content).length = 0 then .error "Memory content cannot be empty"
  else
    let existingMemories := loadSessionMemories stored
    let sessionId := generateSessionId freshSession now stored
    let memoryAnalysis := analyzeMemoryContent content
    match shouldConsolidateMemory now content existingMemories with
    | some target => .ok (consolidateMemories genEmbed now stored target content)
    | none =>
      let processedContent := processMemoryContentSimple content memoryAnalysis
      let contentMetadata := extractContentMetadata metaOracle processedContent
      let embedding := genEmbed processedContent
      let newMemory : SessionMemory :=
        { id := freshId, content := processedContent, created := now, session_id := sessionId,
          embedding := embedding
          embedding_model :=
            match embedding with
            | some _ => some aiEmbeddingModel
            | none => none
          metadata := some contentMetadata }
      let updatedMemories := manageMemoryCapacitySimple (newMemory :: existingMemories)
      .ok (newMemory, saveSessionMemoriesState updatedMemories)

/-! ## Similarity primitives and clustering (utils.ts) -/

/-- The document string a memory contributes to clustering:
`` `${m.content} ${m.tags.join(' ')}` ``. -/
def docOfMemory (m : Memory) : String :=
  m.content ++ " " ++ String.intercalate " " m.tags

/-- Tokenization step of `calculateTFIDF`. -/
def tfidfTokenize (doc : String) : List String :=
  (jsSplit isSpaceChar (replaceNonWordWithSpace (lowerStr doc))).filter
    (fun word => word.length > 2)

/-- The TF-IDF vector `calculateTFIDF` computes for the document `doc`
within the corpus `documents` (the vector of row `i` of the source
depends only on the corpus and on the text of document `i`, so it is a
function of the document's value).  `mlog` models `Math.log`. -/
def tfidfVectorFor (mlog : ℚ → ℚ) (documents : List String) (doc : String) : List ℚ :=
  let tokenizedDocs := documents.map tfidfTokenize
  let vocabulary := jsSetList tokenizedDocs.flatten
  if vocabulary.isEmpty then []
  else
    let tokens := tfidfTokenize doc
    let tf := vocabulary.map (fun term =>
      let termCount := tokens.countP (fun word => word == term)
      if tokens.length > 0 then (termCount : ℚ) / (tokens.length : ℚ) else 0)
    let idf := vocabulary.map (fun term =>
      let docsContaining := tokenizedDocs.countP (fun tokd => tokd.contains term)
      if docsContaining > 0 then mlog ((documents.length : ℚ) / (docsContaining : ℚ)) else 0)
    List.zipWith (· * ·) tf idf

/-- `calculateTFIDF` (utils.ts): one vector per document. -/
def calculateTFIDF (mlog : ℚ → ℚ) (documents : List String) : List (List ℚ) :=
  if documents.isEmpty then []
  else documents.map (tfidfVectorFor mlog documents)

/-- `cosineSimilarity` (utils.ts), with `Math.sqrt` abstracted. -/
def cosineSimilarity (msqrt : ℚ → ℚ) (vectorA vectorB : List ℚ) : ℚ :=
  if vectorA.length ≠ vectorB.length || vectorA.length = 0 then 0
  else
    let dotProduct := (List.zipWith (· * ·) vectorA vectorB).sum
    let magnitudeA := msqrt ((vectorA.map (fun a => a * a)).sum)
    let magnitudeB := msqrt ((vectorB.map (fun b => b * b)).sum)
    if magnitudeA = 0 || magnitudeB = 0 then 0
    else dotProduct / (magnitudeA * magnitudeB)

/-- `extractKeyTerms` (utils.ts). -/
def extractKeyTerms (memories : List Memory) (maxTerms : Nat := 5) : List String :=
  let allText := String.intercalate " " (memories.map docOfMemory)
  let words := (jsSplit isSpaceChar (replaceNonWordWithSpace (lowerStr allText))).filter
    (fun word => word.length > 3)
  ((sortDescBy (fun p => p.2) (countsList words)).take maxTerms).map (·.1)

/-- Grouping `memories.reduce(...)` by `category` with object insertion
order (first-encounter order of categories, members in input order). -/
def addToGroup : List (String × List Memory) → String → Memory → List (String × List Memory)
  | [], cat, mem => [(cat, [mem])]
  | (c, ms) :: rest, cat, mem =>
    if c = cat then (c, ms ++ [mem]) :: rest
    else (c, ms) :: addToGroup rest cat mem

/-- The `byCategory` record of the synthesis functions. -/
def groupByCategory (memories : List Memory) : List (String × List Memory) :=
  memories.foldl (fun acc mem => addToGroup acc mem.category mem) []

/-- `synthesizeMemoryCluster` (utils.ts). -/
def synthesizeMemoryCluster (memories : List Memory) (theme : String) : String :=
  match memories with
  | [] => ""
  | [m] => m.content
  | _ =>
    let byCategory := groupByCategory memories
    let synthesis := "**" ++ upperStr theme ++ "**\n\n"
    let synthesis := byCategory.foldl (fun syn p =>
      match p.2 with
      | [m] => syn ++ "• " ++ m.content ++ "\n"
      | mems =>
        let keyPoints := mems.map (fun m =>
          let firstSentence := jsTrim ((jsSplit isSentenceSepChar m.content).headD "")
          if firstSentence.length > 10 then firstSentence else substrPrefix m.content 80)
        syn ++ "• **" ++ upperStr p.1 ++ "**: " ++ String.intercalate " • " keyPoints ++ "\n")
      synthesis
    let totalTags := jsSetList (memories.map (·.tags)).flatten
    let synthesis :=
      if totalTags.length > 0 then
        synthesis ++ "\n*Related: " ++ String.intercalate ", " (totalTags.take 5) ++ "*"
      else synthesis
    jsTrim synthesis

/-- `haveSimilarTags` (utils.ts): non-empty tag-set intersection. -/
def haveSimilarTags (mem1 mem2 : Memory) : Bool :=
  decide (((jsSetList mem1.tags).filter (fun tag => (jsSetList mem2.tags).contains tag)).length
    > 0)

/-- `extractThemeFromMemory` (utils.ts).  Note `content.split(' ')`
splits at every single space. -/
def extractThemeFromMemory (memory : Memory) : String :=
  match memory.tags with
  | tag :: _ => capitalizeFirst tag
  | [] =>
    let words := (splitChar ' ' memory.content).take 3
    stripNonWordNonSpace (String.intercalate " " words)

/-- `generateClusterTheme` (utils.ts).  The source indexes
`memories[0]`, so the empty case (unreachable from the callers, which
pass non-empty clusters) is given the default `""`. -/
def generateClusterTheme (memories : List Memory) : String :=
  match memories with
  | [] => ""
  | [m] => extractThemeFromMemory m
  | m0 :: _ =>
    match m0.tags.filter (fun tag => memories.all (fun mem => mem.tags.contains tag)) with
    | commonTag :: _ => capitalizeFirst commonTag
    | [] =>
      let categoryCount := countsList (memories.map (·.category))
      let dominantCategory := ((sortDescBy (fun p => p.2) categoryCount).headD ("", 0)).1
      capitalizeFirst dominantCategory ++ " Cluster"

/-- `findDominantCategory` (utils.ts): most frequent category, ties
broken by first encounter (stable sort over object insertion order). -/
def findDominantCategory (cluster : List Memory) : String :=
  ((sortDescBy (fun p => p.2) (countsList (cluster.map (·.category)))).headD ("", 0)).1

/-- `calculateClusterRelevance` (utils.ts); `now` models `Date.now()`. -/
def calculateClusterRelevance (now : Int) (cluster : List Memory) (query : String) : ℚ :=
  if jsTrim query = "" || query = "*" then 1
  else
    let queryTerms := jsSplit isSpaceChar (lowerStr query)
    let totalScore : ℚ :=
      (cluster.map (fun memory =>
        let content := lowerStr memory.content
        let tags := lowerStr (String.intercalate " " memory.tags)
        (queryTerms.map (fun term =>
          (if includesStr content term then (10 : ℚ) else 0) +
          (if includesStr tags term then (15 : ℚ) else 0) +
          (if includesStr memory.category term then (8 : ℚ) else 0) +
          ((jsSplit isSpaceChar content).map (fun word =>
            if includesStr word term && word != term then (2 : ℚ) else 0)).sum)).sum +
        (if (((now - memory.created : Int) : ℚ) / 86400000) < 7 then (5 : ℚ) else 0) +
        (if (((now - memory.created : Int) : ℚ) / 86400000) < 1 then (10 : ℚ) else 0))).sum
    min (totalScore / ((cluster.length : ℚ) * (queryTerms.length : ℚ) * 10)) 1

/-- `getTermVariations` (utils.ts version; its mapping table is smaller
than the search module's `expansionMap`). -/
def getTermVariations (term : String) : List String :=
  let techMappings : List (String × List String) :=
    [("api", ["endpoint", "service", "interface", "rest"]),
     ("auth", ["authentication", "login", "security", "token"]),
     ("db", ["database", "data", "storage", "persistence"]),
     ("config", ["configuration", "settings", "setup", "environment"]),
     ("deploy", ["deployment", "production", "release", "publish"]),
     ("test", ["testing", "spec", "validation", "verify"]),
     ("bug", ["error", "issue", "problem", "fix"]),
     ("perf", ["performance", "optimization", "speed", "efficiency"])]
  let variations :=
    match (techMappings.find? (fun p => p.1 == term)).map (·.2) with
    | some vs => vs
    | none => []
  techMappings.foldl (fun acc p =>
    if p.2.contains term then acc ++ [p.1] ++ p.2.filter (fun v => v ≠ term)
    else acc) variations

/-- `Math.ceil(n * 0.75)` for a natural `n`. -/
def ceilThreeQuarters (n : Nat) : Nat := (3 * n + 3) / 4

/-- `expandSearchTerms` (utils.ts). -/
def expandSearchTerms (query : String) : List String :=
  let baseTerms := (jsSplit isSpaceChar (lowerStr query)).filter (fun term => term.length > 1)
  baseTerms.foldl (fun acc term =>
    let acc :=
      if term.length > 4 then jsSetAdd acc (substrPrefix term (ceilThreeQuarters term.length))
      else acc
    (getTermVariations term).foldl jsSetAdd acc)
    (jsSetList baseTerms)

/-- Sequential `Array.prototype.map` in the presence of exceptions: the
first element on which `f` throws aborts the whole traversal. -/
def mapExcept (f : α → Except String β) : List α → Except String (List β)
  | [] => .ok []
  | x :: xs =>
    match f x with
    | .error e => .error e
    | .ok y =>
      match mapExcept f xs with
      | .error e => .error e
      | .ok ys => .ok (y :: ys)

/-- `calculateEnhancedClusterRelevance` (utils.ts): the accumulating
passes are written as parallel sums for the running total and the
maximum-possible score.  Pass 1 interpolates each raw (lowercased,
whitespace-split) query term into `new RegExp("\\b" ++ term ++ "\\b",
"gi")` without sanitizing it, so the constructor can throw a
`SyntaxError` (e.g. for the term `"c++"`, whose pattern `\bc++\b` has
nothing to repeat).  The regex behaviour is therefore an oracle
`reCount`: `reCount term = none` models a throwing constructor, `some f`
a compiled regex whose global match count on a string is `f`.  The
source iterates memories and, per memory, terms, constructing every
term's regex for the first memory, so it throws exactly when the cluster
is non-empty and some term's constructor throws; the thrown error is
modelled by the fixed message below. -/
def calculateEnhancedClusterRelevance (reCount : String → Option (String → Nat)) (now : Int)
    (cluster : List Memory) (query : String) : Except String ℚ :=
  if jsTrim query = "" || query = "*" then .ok 1
  else
    let expandedTerms := expandSearchTerms query
    let queryTerms := (jsSplit isSpaceChar (lowerStr query)).filter (fun term => term.length > 1)
    if !cluster.isEmpty && queryTerms.any (fun term => (reCount term).isNone) then
      .error "Invalid regular expression"
    else
    let totalScore : ℚ :=
      (cluster.map (fun memory =>
        let content := lowerStr memory.content
        let tags := lowerStr (String.intercalate " " memory.tags)
        let category := lowerStr memory.category
        let pass1 : ℚ :=
          (queryTerms.map (fun term =>
            ((((reCount term).map (fun f => f content)).getD 0 : Nat) : ℚ) * 15 +
            (if includesStr tags term then (20 : ℚ) else 0) +
            (if includesStr category term then (12 : ℚ) else 0))).sum
        let pass2 : ℚ :=
          (expandedTerms.map (fun term =>
            if !queryTerms.contains term then
              (if includesStr content term then (8 : ℚ) else 0) +
              (if includesStr tags term then (10 : ℚ) else 0)
            else 0)).sum
        let pass3 : ℚ :=
          (queryTerms.map (fun queryTerm =>
            ((jsSplit isSpaceChar content).map (fun word =>
              if word.length > 3 && queryTerm.length > 3 then
                (if includesStr word queryTerm || includesStr queryTerm word then (3 : ℚ)
                 else 0) +
                (if calculateStringSimilarity word queryTerm > 0.7 then (5 : ℚ) else 0)
              else 0)).sum)).sum
        let daysSince : ℚ := ((now - memory.created : Int) : ℚ) / 86400000
        let pass4 : ℚ :=
          (if daysSince < 1 then (15 : ℚ)
           else if daysSince < 7 then 10
           else if daysSince < 30 then 5
           else 0) +
          (if memory.category = "decision" then (5 : ℚ) else 0) +
          (if memory.category = "context" then (3 : ℚ) else 0)
        pass1 + pass2 + pass3 + pass4)).sum +
      (if cluster.length > 1 then min ((cluster.length : ℚ) * 2) 10 else 0)
    let maxPossibleScore : ℚ :=
      (cluster.map (fun _ =>
        (queryTerms.length : ℚ) * (15 + 32) +
        (expandedTerms.map (fun term =>
          if !queryTerms.contains term then (18 : ℚ) else 0)).sum +
        (queryTerms.length : ℚ) * 8 + 20)).sum +
      (if cluster.length > 1 then (10 : ℚ) else 0)
    .ok (min (totalScore / max maxPossibleScore 1) 1)

/-- `areTemporallyRelated` (utils.ts): within 3 days. -/
def areTemporallyRelated (mem1 mem2 : Memory) : Bool :=
  decide ((((mem1.created - mem2.created).natAbs : ℚ) / 86400000) < 3)

/-- `synthesizeMemoryClusterEnhanced` (utils.ts); `fmtDate` abstracts
the locale-dependent `toLocaleDateString`. -/
def synthesizeMemoryClusterEnhanced (fmtDate : Int → String) (memories : List Memory)
    (theme : String) (query : String) : String :=
  match memories with
  | [] => ""
  | [m] => m.content
  | _ =>
    let expandedTerms := if query = "" then [] else expandSearchTerms query
    let byCategory := groupByCategory memories
    let synthesis := "**" ++ upperStr theme ++ "**\n\n"
    let synthesis := byCategory.foldl (fun syn p =>
      match p.2 with
      | [m] => syn ++ "• **" ++ upperStr p.1 ++ "**: " ++ m.content ++ "\n\n"
      | mems =>
        let items := (mems.enum.map (fun (iv : Nat × Memory) =>
          let mem := iv.2
          let content :=
            if expandedTerms ≠ [] then
              let sentences := (jsSplit isSentenceSepChar mem.content).filter
                (fun s => (jsTrim s).length > 10)
              let relevantSentences := sentences.filter (fun sentence =>
                expandedTerms.any (fun term => includesStr (lowerStr sentence) term))
              if relevantSentences ≠ [] then
                jsTrim (String.intercalate ". " relevantSentences) ++ "."
              else if mem.content.length > 120 then substrPrefix mem.content 120 ++ "..."
              else mem.content
            else if mem.content.length > 100 then substrPrefix mem.content 100 ++ "..."
            else mem.content
          "  " ++ toString (iv.1 + 1) ++ ". " ++ content ++ "\n")).foldl (· ++ ·) ""
        syn ++ "• **" ++ upperStr p.1 ++ "**:\n" ++ items ++ "\n")
      synthesis
    let totalTags := jsSetList (memories.map (·.tags)).flatten
    let synthesis :=
      if totalTags.length > 0 then
        synthesis ++ "*📋 Tags: " ++ String.intercalate ", " (totalTags.take 8) ++ "*\n"
      else synthesis
    let dates := memories.map (·.created)
    let oldest := listMinInt dates
    let newest := listMaxInt dates
    let synthesis :=
      if oldest ≠ newest then
        synthesis ++ "*📅 Timespan: " ++ fmtDate oldest ++ " - " ++ fmtDate newest ++ "*"
      else synthesis ++ "*📅 Created: " ++ fmtDate oldest ++ "*"
    jsTrim synthesis

/-- Similarity-matrix entry of `clusterMemories` for two memories of the
corpus (the entry at `(i, j)`, `i ≠ j`, is a function of the corpus and
the two memories' values). -/
def plainSimilarityEntry (mlog msqrt : ℚ → ℚ) (memories : List Memory)
    (mi mj : Memory) : ℚ :=
  let documents := memories.map docOfMemory
  cosineSimilarity msqrt (tfidfVectorFor mlog documents (docOfMemory mi))
    (tfidfVectorFor mlog documents (docOfMemory mj))

/-- Boosted similarity-matrix entry of `clusterMemoriesEnhanced`. -/
def enhancedSimilarityEntry (mlog msqrt : ℚ → ℚ) (memories : List Memory)
    (mi mj : Memory) : ℚ :=
  let similarity := plainSimilarityEntry mlog msqrt memories mi mj
  let sharedTags := mi.tags.filter (fun tag => mj.tags.contains tag)
  let similarity :=
    if sharedTags.length > 0 then
      similarity + 0.2 * ((sharedTags.length : ℚ) / (max mi.tags.length mj.tags.length : ℚ))
    else similarity
  let similarity := if mi.category = mj.category then similarity + 0.15 else similarity
  let daysDiff : ℚ := ((mi.created - mj.created).natAbs : ℚ) / 86400000
  let similarity := if daysDiff < 7 then similarity + 0.1 * (1 - daysDiff / 7) else similarity
  min similarity 1

/-- Absorption test of the greedy loop in `clusterMemories`. -/
def plainAbsorb (mlog msqrt : ℚ → ℚ) (memories : List Memory) (mi mj : Memory) : Bool :=
  decide (plainSimilarityEntry mlog msqrt memories mi mj > 0.3) || haveSimilarTags mi mj ||
    (mi.category == mj.category)

/-- Absorption test of the greedy loop in `clusterMemoriesEnhanced`. -/
def enhancedAbsorb (mlog msqrt : ℚ → ℚ) (memories : List Memory) (mi mj : Memory) : Bool :=
  decide (enhancedSimilarityEntry mlog msqrt memories mi mj > 0.2) || haveSimilarTags mi mj ||
    (mi.category == mj.category) || areTemporallyRelated mi mj

/-- The greedy visited-set clustering loop: each unvisited memory seeds
a cluster absorbing every later unvisited memory accepted by `pred`.
The fuel only drives structural recursion and is unreachable from
`fuel ≥ length`. -/
def greedyClusterGo (pred : Memory → Memory → Bool) : Nat → List Memory → List (List Memory)
  | _, [] => []
  | 0, _ :: _ => []
  | fuel + 1, m :: rest =>
    (m :: rest.filter (fun x => pred m x)) ::
      greedyClusterGo pred fuel (rest.filter (fun x => !pred m x))

/-- `clusterMemories` (search-operations.ts / utils.ts). -/
def clusterMemories (mlog msqrt : ℚ → ℚ) (now : Int) (memories : List Memory)
    (query : String) : List MemoryCluster :=
  match memories with
  | [] => []
  | [m] =>
    [{ theme := extractThemeFromMemory m, memories := [m], keyTerms := extractKeyTerms [m],
       synthesizedContent := m.content, relevanceScore := 1, category := m.category }]
  | _ =>
    let clusters := (greedyClusterGo (plainAbsorb mlog msqrt memories) memories.length
      memories).map (fun cluster =>
      let theme := generateClusterTheme cluster
      ({ theme, memories := cluster, keyTerms := extractKeyTerms cluster,
         synthesizedContent := synthesizeMemoryCluster cluster theme,
         relevanceScore := calculateClusterRelevance now cluster query,
         category := findDominantCategory cluster } : MemoryCluster))
    sortDescBy (·.relevanceScore) clusters

/-- `clusterMemoriesEnhanced` (utils.ts).  The per-cluster relevance
computation can throw (see `calculateEnhancedClusterRelevance`), and the
source computes it inside a `.map` over the clusters, so the first
throwing cluster aborts the whole call: the function either throws a
`SyntaxError` or returns the sorted cluster list. -/
def clusterMemoriesEnhanced (reCount : String → Option (String → Nat)) (mlog msqrt : ℚ → ℚ)
    (fmtDate : Int → String) (now : Int) (memories : List Memory) (query : String) :
    Except String (List MemoryCluster) :=
  match memories with
  | [] => .ok []
  | [m] =>
    match calculateEnhancedClusterRelevance reCount now [m] query with
    | .error e => .error e
    | .ok rel =>
      .ok [{ theme := extractThemeFromMemory m, memories := [m],
             keyTerms := extractKeyTerms [m], synthesizedContent := m.content,
             relevanceScore := rel, category := m.category }]
  | _ =>
    match mapExcept (fun cluster =>
        match calculateEnhancedClusterRelevance reCount now cluster query with
        | .error e => .error e
        | .ok rel =>
          let theme := generateClusterTheme cluster
          .ok ({ theme, memories := cluster, keyTerms := extractKeyTerms cluster,
                 synthesizedContent := synthesizeMemoryClusterEnhanced fmtDate cluster theme
                   query,
                 relevanceScore := rel,
                 category := findDominantCategory cluster } : MemoryCluster))
      (greedyClusterGo (enhancedAbsorb mlog msqrt memories) memories.length memories) with
    | .error e => .error e
    | .ok clusters => .ok (sortDescBy (·.relevanceScore) clusters)

/-! ## Fixtures: concrete inputs used by witnesses and counterexamples -/

/-- Oracle modelling an unavailable embedding backend (fails soft). -/
def noEmbedOracle : String → Option (List ℚ) := fun _ => none

/-- Oracle modelling an unavailable metadata backend (fallback path). -/
def noMetaOracle : String → Option MemoryMetadata := fun _ => none

/-- A trivial interpretation of `Math.sqrt` (never reached on the
fixtures, which carry no embeddings). -/
def sqrtZero : ℚ → ℚ := fun _ => 0

/-- A trivial interpretation of `Math.log` (never reached on the
single-memory clustering fixture). -/
def logZero : ℚ → ℚ := fun _ => 0

/-- A trivial date formatter. -/
def fmtEmpty : Int → String := fun _ => ""

/-- A stored memory sharing only the word "security" with the fixture
query, so that its combined score stays below the acceptance
threshold. -/
def cexMemory : SessionMemory :=
  { id := "m1", content := "xyzzy plugh security", created := 0, session_id := "s1",
    embedding := none, embedding_model := none, metadata := none }

/-- A same-session near-duplicate of `cexMemory`. -/
def cexMemory2 : SessionMemory :=
  { id := "m2", content := "xyzzy plugh security", created := 0, session_id := "s1",
    embedding := none, embedding_model := none, metadata := none }

/-- A query whose terms barely match the fixture store (`specific`
focus, threshold 25), driving the search into the fallback branch. -/
def cexQuery : String := "security architecture database"

/-- A stored memory to consolidate into. -/
def consTarget : SessionMemory :=
  { id := "t1", content := "alpha bravo charlie delta", created := 0, session_id := "s1",
    embedding := none, embedding_model := none, metadata := none }

/-- A second save, five minutes later, overlapping `consTarget` in four
of five long words (similarity 0.8). -/
def consContent : String := "alpha bravo charlie delta echo"

/-- The memory produced by saving "hello" into an empty store with the
fixture oracles at time 0. -/
def helloMemory : SessionMemory :=
  { id := "fresh", content := "hello", created := 0, session_id := "sessA",
    embedding := none, embedding_model := none,
    metadata := some { category := "general", topics := ["hello"], entities := [],
                       keyActions := [], domain := "general" } }

/-- Two memories with distinct timestamps for the recency fixtures. -/
def olderMemory : SessionMemory :=
  { id := "old", content := "older entry", created := 0, session_id := "s0",
    embedding := none, embedding_model := none, metadata := none }

/-- The newer of the two recency fixtures. -/
def newerMemory : SessionMemory :=
  { id := "new", content := "newer entry", created := 1000, session_id := "s0",
    embedding := none, embedding_model := none, metadata := none }

/-- A memory whose content matches `mainQuery` exactly, scoring far
above the acceptance threshold. -/
def matchMemory : SessionMemory :=
  { id := "mm", content := "alpha bravo charlie", created := 0, session_id := "s2",
    embedding := none, embedding_model := none, metadata := none }

/-- A query that `matchMemory` satisfies, keeping the search on the
main ranking path. -/
def mainQuery : String := "alpha bravo charlie"

/-- A single memory for the clustering witness. -/
def clusterFixture : Memory :=
  { id := "c1", content := "alpha beta", category := "note", created := 0, tags := ["alpha"] }

/-- One concrete interpretation of the regex oracle of
`calculateEnhancedClusterRelevance`: a term made of word characters
compiles (the pattern `\b term \b` then counts exactly the maximal word
runs equal to the term), and any other term is mapped to a thrown
`SyntaxError`.  This matches JavaScript on both clustering fixtures:
`"alpha"` compiles, and `"c++"` gives the pattern `\bc++\b`, which the
constructor rejects (nothing to repeat). -/
def wordRegexCount : String → Option (String → Nat) := fun term =>
  if term.data.all isWordChar then some (fun content => countWordMatches content term)
  else none

deriving instance DecidableEq for Except

/-! ## Helper lemmas -/

theorem insertDescBy_perm [LinearOrder K] (key : α → K) (m : α) (l : List α) :
    List.Perm (insertDescBy key m l) (m :: l) := by
  induction l with
  | nil => exact List.Perm.refl _
  | cons x xs ih =>
    unfold insertDescBy
    split
    · exact List.Perm.refl _
    · exact (ih.cons x).trans (List.Perm.swap m x xs)

theorem sortDescBy_perm [LinearOrder K] (key : α → K) (l : List α) :
    List.Perm (sortDescBy key l) l := by
  induction l with
  | nil => exact List.Perm.refl _
  | cons x xs ih => exact (insertDescBy_perm key x (sortDescBy key xs)).trans (ih.cons x)

theorem sortDescBy_length [LinearOrder K] (key : α → K) (l : List α) :
    (sortDescBy key l).length = l.length :=
  (sortDescBy_perm key l).length_eq

theorem insertDescBy_pairwise [LinearOrder K] (key : α → K) (m : α) (l : List α)
    (h : l.Pairwise (fun a b => key b ≤ key a)) :
    (insertDescBy key m l).Pairwise (fun a b => key b ≤ key a) := by
  induction l with
  | nil => simp [insertDescBy]
  | cons x xs ih =>
    rcases List.pairwise_cons.1 h with ⟨hx, hxs⟩
    unfold insertDescBy
    split
    · rename_i hcmp
      exact List.pairwise_cons.2 ⟨by
        intro b hb
        rcases List.mem_cons.1 hb with hb | hb
        · exact hb ▸ hcmp
        · exact le_trans (hx b hb) hcmp, h⟩
    · rename_i hcmp
      refine List.pairwise_cons.2 ⟨?_, ih hxs⟩
      intro b hb
      rcases List.mem_cons.1 ((insertDescBy_perm key m xs).mem_iff.1 hb) with rfl | hb
      · exact le_of_not_le hcmp
      · exact hx b hb

theorem sortDescBy_pairwise [LinearOrder K] (key : α → K) (l : List α) :
    (sortDescBy key l).Pairwise (fun a b => key b ≤ key a) := by
  induction l with
  | nil => simp [sortDescBy]
  | cons x xs ih => exact insertDescBy_pairwise key x (sortDescBy key xs) ih

/-- Every element of a list is bounded by the head key of its
descending sort. -/
theorem sortDescBy_head_ge [LinearOrder K] (key : α → K) (l : List α) (y : α)
    (hy : (sortDescBy key l).head? = some y) : ∀ x ∈ l, key x ≤ key y := by
  intro x hx
  have hx' : x ∈ sortDescBy key l := (sortDescBy_perm key l).mem_iff.2 hx
  rcases hs : sortDescBy key l with _ | ⟨h0, t⟩
  · simp [hs] at hx'
  · have hy0 : h0 = y := by simpa [hs] using hy
    rcases List.mem_cons.1 (hs ▸ hx') with rfl | hxt
    · exact hy0 ▸ le_refl _
    · have hp := sortDescBy_pairwise key l
      rw [hs] at hp
      exact hy0 ▸ (List.pairwise_cons.1 hp).1 x hxt

/-- In a list sorted by non-increasing key, every kept element (the
first `n`) has a key at least that of every dropped element. -/
theorem take_key_ge_drop [LinearOrder K] (key : α → K) (l : List α) (n : Nat)
    (hl : l.Pairwise (fun a b => key b ≤ key a)) :
    ∀ x ∈ l.take n, ∀ y ∈ l.drop n, key y ≤ key x := by
  intro x hx y hy
  have h := (List.take_append_drop n l) ▸ hl
  exact ((List.pairwise_append.1 h).2.2) x hx y hy

/-- A trivially reflexive pairwise relation holds of every list. -/
theorem pairwise_of_forall {R : α → α → Prop} (h : ∀ a b, R a b) (l : List α) :
    l.Pairwise R := by
  induction l with
  | nil => exact List.Pairwise.nil
  | cons x xs ih => exact List.pairwise_cons.2 ⟨fun b _ => h x b, ih⟩

/-- Structure of a strict-update running-argmax fold: either no element
beats the accumulator and it is returned unchanged, or the result is
`(f c, c)` for the first element `c` attaining the final maximum. -/
theorem foldl_argmax_split (f : α → Nat) :
    ∀ (l : List α) (acc : Nat × α),
      (l.foldl (fun acc c => if acc.1 < f c then (f c, c) else acc) acc = acc ∧
        ∀ c ∈ l, f c ≤ acc.1) ∨
      (∃ l₁ c l₂, l = l₁ ++ c :: l₂ ∧
        l.foldl (fun acc c => if acc.1 < f c then (f c, c) else acc) acc = (f c, c) ∧
        acc.1 < f c ∧ (∀ d ∈ l₁, f d < f c) ∧ (∀ d ∈ l₂, f d ≤ f c)) := by
  intro l
  induction l with
  | nil =>
    intro acc
    exact Or.inl ⟨rfl, by simp⟩
  | cons x xs ih =>
    intro acc
    by_cases hx : acc.1 < f x
    · have hstep : ((x :: xs).foldl (fun acc c => if acc.1 < f c then (f c, c) else acc) acc) =
          xs.foldl (fun acc c => if acc.1 < f c then (f c, c) else acc) (f x, x) := by
        simp only [List.foldl_cons, if_pos hx]
      rcases ih (f x, x) with ⟨heq, hle⟩ | ⟨l₁, c, l₂, hsplit, hres, hlt, hbef, haft⟩
      · right
        refine ⟨[], x, xs, by simp, ?_, hx, by simp, ?_⟩
        · rw [hstep, heq]
        · intro d hd
          simpa using hle d hd
      · right
        refine ⟨x :: l₁, c, l₂, by rw [hsplit]; rfl, ?_, ?_, ?_, haft⟩
        · rw [hstep, hres]
        · exact lt_trans hx hlt
        · intro d hd
          rcases List.mem_cons.1 hd with rfl | hd'
          · exact hlt
          · exact hbef d hd'
    · have hstep : ((x :: xs).foldl (fun acc c => if acc.1 < f c then (f c, c) else acc) acc) =
          xs.foldl (fun acc c => if acc.1 < f c then (f c, c) else acc) acc := by
        simp only [List.foldl_cons, if_neg hx]
      rcases ih acc with ⟨heq, hle⟩ | ⟨l₁, c, l₂, hsplit, hres, hlt, hbef, haft⟩
      · left
        refine ⟨by rw [hstep, heq], ?_⟩
        intro d hd
        rcases List.mem_cons.1 hd with rfl | hd'
        · omega
        · exact hle d hd'
      · right
        refine ⟨x :: l₁, c, l₂, by rw [hsplit]; rfl, by rw [hstep, hres], hlt, ?_, haft⟩
        intro d hd
        rcases List.mem_cons.1 hd with rfl | hd'
        · omega
        · exact hbef d hd'

/-- `jsSplitGo` never returns the empty list. -/
theorem jsSplitGo_ne_nil (p : Char → Bool) :
    ∀ (cs : List Char) (st : Option (List Char)), jsSplitGo p cs st ≠ [] := by
  intro cs
  induction cs with
  | nil => intro st; cases st <;> simp [jsSplitGo]
  | cons c cs ih =>
    intro st
    cases st with
    | some cur =>
      unfold jsSplitGo
      split
      · simp
      · exact ih (some (c :: cur))
    | none =>
      unfold jsSplitGo
      split
      · exact ih none
      · exact ih (some [c])

/-- `jsSplit` never returns the empty list. -/
theorem jsSplit_ne_nil (p : Char → Bool) (s : String) : jsSplit p s ≠ [] :=
  jsSplitGo_ne_nil p s.data (some [])

/-- An if-then-else of nonnegative rationals is nonnegative. -/
theorem ite_nonneg {c : Prop} [Decidable c] {a b : ℚ} (ha : 0 ≤ a) (hb : 0 ≤ b) :
    0 ≤ if c then a else b := by
  split <;> assumption

/-- The clusters produced by the greedy visited-set loop cover the input
exactly: their concatenation is a permutation of the input list
(provided the fuel covers the input, as it always does at the call
sites). -/
theorem greedyClusterGo_flatten_perm (pred : Memory → Memory → Bool) :
    ∀ (fuel : Nat) (l : List Memory), l.length ≤ fuel →
      List.Perm (greedyClusterGo pred fuel l).flatten l := by
  intro fuel
  induction fuel with
  | zero =>
    intro l hl
    have hnil : l = [] := List.length_eq_zero.1 (Nat.le_zero.1 hl)
    subst hnil
    simp [greedyClusterGo]
  | succ fuel ih =>
    intro l hl
    cases l with
    | nil => simp [greedyClusterGo]
    | cons m rest =>
      have hlen : (rest.filter (fun x => !pred m x)).length ≤ fuel := by
        have hfl := List.length_filter_le (fun x => !pred m x) rest
        have : rest.length + 1 ≤ fuel + 1 := by simpa using hl
        omega
      have h1 := ih (rest.filter (fun x => !pred m x)) hlen
      show List.Perm (((m :: rest.filter (fun x => pred m x)) ::
        greedyClusterGo pred fuel (rest.filter (fun x => !pred m x))).flatten) (m :: rest)
      rw [List.flatten_cons, List.cons_append]
      exact List.Perm.cons m
        ((List.Perm.append_left _ h1).trans (List.filter_append_perm _ rest))

/-- Every cluster produced by the greedy loop is non-empty. -/
theorem greedyClusterGo_ne_nil (pred : Memory → Memory → Bool) :
    ∀ (fuel : Nat) (l : List Memory), ∀ cl ∈ greedyClusterGo pred fuel l, cl ≠ [] := by
  intro fuel
  induction fuel with
  | zero =>
    intro l cl hcl
    cases l <;> simp [greedyClusterGo] at hcl
  | succ fuel ih =>
    intro l cl hcl
    cases l with
    | nil => simp [greedyClusterGo] at hcl
    | cons m rest =>
      simp only [greedyClusterGo] at hcl
      rcases List.mem_cons.1 hcl with rfl | h
      · simp
      · exact ih _ cl h

/-- The plain cluster-relevance score always lies in `[0, 1]`. -/
theorem calculateClusterRelevance_bounds (now : Int) (cluster : List Memory)
    (query : String) :
    0 ≤ calculateClusterRelevance now cluster query ∧
      calculateClusterRelevance now cluster query ≤ 1 := by
  simp only [calculateClusterRelevance]
  split
  · exact ⟨by norm_num, le_refl 1⟩
  · constructor
    · refine le_min ?_ (by norm_num)
      refine div_nonneg ?_ (by positivity)
      refine List.sum_nonneg ?_
      intro x hx
      rcases List.mem_map.1 hx with ⟨mem, _, rfl⟩
      refine add_nonneg (add_nonneg ?_ (ite_nonneg (by norm_num) (le_refl 0)))
        (ite_nonneg (by norm_num) (le_refl 0))
      refine List.sum_nonneg ?_
      intro y hy
      rcases List.mem_map.1 hy with ⟨term, _, rfl⟩
      refine add_nonneg (add_nonneg (add_nonneg (ite_nonneg (by norm_num) (le_refl 0))
        (ite_nonneg (by norm_num) (le_refl 0))) (ite_nonneg (by norm_num) (le_refl 0))) ?_
      refine List.sum_nonneg ?_
      intro z hz
      rcases List.mem_map.1 hz with ⟨w, _, rfl⟩
      exact ite_nonneg (by norm_num) (le_refl 0)
    · exact min_le_right _ _

/-- Every successfully returned enhanced cluster-relevance score lies in
`[0, 1]`, whatever the regex oracle reports. -/
theorem calculateEnhancedClusterRelevance_bounds (reCount : String → Option (String → Nat))
    (now : Int) (cluster : List Memory) (query : String) :
    ∀ r, calculateEnhancedClusterRelevance reCount now cluster query = .ok r →
      0 ≤ r ∧ r ≤ 1 := by
  intro r hr
  simp only [calculateEnhancedClusterRelevance] at hr
  split at hr
  · obtain rfl := Except.ok.inj hr
    exact ⟨by norm_num, le_refl 1⟩
  · split at hr
    · exact Except.noConfusion hr
    · obtain rfl := Except.ok.inj hr
      constructor
      · refine le_min ?_ (by norm_num)
        refine div_nonneg ?_ (le_trans zero_le_one (le_max_right _ 1))
        refine add_nonneg (List.sum_nonneg ?_)
          (ite_nonneg (le_min (by positivity) (by norm_num)) (le_refl 0))
        intro x hx
        rcases List.mem_map.1 hx with ⟨mem, _, rfl⟩
        refine add_nonneg (add_nonneg (add_nonneg ?_ ?_) ?_) ?_
        · refine List.sum_nonneg ?_
          intro y hy
          rcases List.mem_map.1 hy with ⟨term, _, rfl⟩
          exact add_nonneg (add_nonneg (by positivity) (ite_nonneg (by norm_num) (le_refl 0)))
            (ite_nonneg (by norm_num) (le_refl 0))
        · refine List.sum_nonneg ?_
          intro y hy
          rcases List.mem_map.1 hy with ⟨term, _, rfl⟩
          exact ite_nonneg (add_nonneg (ite_nonneg (by norm_num) (le_refl 0))
            (ite_nonneg (by norm_num) (le_refl 0))) (le_refl 0)
        · refine List.sum_nonneg ?_
          intro y hy
          rcases List.mem_map.1 hy with ⟨term, _, rfl⟩
          refine List.sum_nonneg ?_
          intro z hz
          rcases List.mem_map.1 hz with ⟨w, _, rfl⟩
          exact ite_nonneg (add_nonneg (ite_nonneg (by norm_num) (le_refl 0))
            (ite_nonneg (by norm_num) (le_refl 0))) (le_refl 0)
        · exact add_nonneg (add_nonneg
            (ite_nonneg (by norm_num) (ite_nonneg (by norm_num)
              (ite_nonneg (by norm_num) (le_refl 0))))
            (ite_nonneg (by norm_num) (le_refl 0)))
            (ite_nonneg (by norm_num) (le_refl 0))
      · exact min_le_right _ _

/-- A successful `mapExcept` run relates input and output pointwise. -/
theorem mapExcept_ok_forall₂ (f : α → Except String β) (P : α → β → Prop)
    (hf : ∀ a b, f a = .ok b → P a b) :
    ∀ (l : List α) (rs : List β), mapExcept f l = .ok rs → List.Forall₂ P l rs := by
  intro l
  induction l with
  | nil =>
    intro rs h
    simp only [mapExcept] at h
    obtain rfl := Except.ok.inj h
    exact List.Forall₂.nil
  | cons x xs ih =>
    intro rs h
    simp only [mapExcept] at h
    rcases hx : f x with e | y
    · rw [hx] at h
      exact Except.noConfusion h
    · rw [hx] at h
      rcases hxs : mapExcept f xs with e | ys
      · rw [hxs] at h
        exact Except.noConfusion h
      · rw [hxs] at h
        obtain rfl := Except.ok.inj h
        exact List.Forall₂.cons (hf x y hx) (ih ys hxs)

/-- A pointwise section property turns `Forall₂` into a map equation. -/
theorem forall₂_map_eq (g : β → α) {l : List α} {rs : List β}
    (h : List.Forall₂ (fun a b => g b = a) l rs) : rs.map g = l := by
  induction h with
  | nil => rfl
  | cons h₁ _ ih => simp [h₁, ih]

/-- Every right element of a `Forall₂` pair has a related left element. -/
theorem forall₂_mem_right {P : α → β → Prop} {l : List α} {rs : List β}
    (h : List.Forall₂ P l rs) : ∀ b ∈ rs, ∃ a ∈ l, P a b := by
  induction h with
  | nil =>
    intro b hb
    exact absurd hb (List.not_mem_nil b)
  | cons h₁ _ ih =>
    intro b hb
    rcases List.mem_cons.1 hb with rfl | hb'
    · exact ⟨_, List.mem_cons_self _ _, h₁⟩
    · rcases ih b hb' with ⟨a, ha, hp⟩
      exact ⟨a, List.mem_cons_of_mem _ ha, hp⟩

/-- Shared shape of both clustering pipelines: sorting cluster records
whose member lists are exactly the greedy output yields a partition of
the input into non-empty clusters, sorted by non-increasing relevance
with every score within the supplied bounds. -/
theorem sorted_cluster_props (rs : List MemoryCluster) (G : List (List Memory))
    (l : List Memory)
    (hmem : rs.map (·.memories) = G)
    (hperm : List.Perm G.flatten l)
    (hnil : ∀ cl ∈ G, cl ≠ [])
    (hbounds : ∀ c ∈ rs, 0 ≤ c.relevanceScore ∧ c.relevanceScore ≤ 1) :
    List.Perm (((sortDescBy (·.relevanceScore) rs).map (·.memories)).flatten) l ∧
    (∀ c ∈ sortDescBy (·.relevanceScore) rs,
      c.memories ≠ [] ∧ 0 ≤ c.relevanceScore ∧ c.relevanceScore ≤ 1) ∧
    (sortDescBy (·.relevanceScore) rs).Pairwise
      (fun a b => b.relevanceScore ≤ a.relevanceScore) := by
  refine ⟨?_, ?_, sortDescBy_pairwise _ _⟩
  · have h2 : List.Perm ((sortDescBy (·.relevanceScore) rs).map (·.memories))
        (rs.map (·.memories)) :=
      List.Perm.map _ (sortDescBy_perm _ _)
    rw [hmem] at h2
    exact (List.Perm.flatten h2).trans hperm
  · intro c hc
    have hc' : c ∈ rs := (sortDescBy_perm _ _).mem_iff.1 hc
    refine ⟨?_, hbounds c hc'⟩
    have hcm : c.memories ∈ rs.map (·.memories) := List.mem_map_of_mem _ hc'
    rw [hmem] at hcm
    exact hnil _ hcm

/-- The deduplication loop only ever appends a subsequence of its
remaining input to the accumulator. -/
theorem dedupGo_eq_append (pq : ProcessedQuery) :
    ∀ (rest acc : List ScoredSearchResult),
      ∃ s, dedupGo pq acc rest = acc ++ s ∧ s.Sublist rest := by
  intro rest
  induction rest with
  | nil => intro acc; exact ⟨[], by simp [dedupGo]⟩
  | cons c cs ih =>
    intro acc
    unfold dedupGo
    split
    · rcases ih acc with ⟨s, hs, hsub⟩
      exact ⟨s, hs, hsub.cons c⟩
    · rcases ih (acc ++ [c]) with ⟨s, hs, hsub⟩
      exact ⟨c :: s, by simpa using hs, hsub.cons₂ c⟩

/-- The deduplication loop preserves the pairwise guarantee that no
kept result triggers the drop test against any earlier kept result. -/
theorem dedupGo_pairwise (pq : ProcessedQuery) :
    ∀ (rest acc : List ScoredSearchResult),
      acc.Pairwise (fun a b => dedupDropCheck pq b a = false) →
      (dedupGo pq acc rest).Pairwise (fun a b => dedupDropCheck pq b a = false) := by
  intro rest
  induction rest with
  | nil => intro acc h; simpa [dedupGo] using h
  | cons c cs ih =>
    intro acc h
    unfold dedupGo
    split
    · exact ih acc h
    · rename_i hany
      refine ih (acc ++ [c]) ?_
      rw [List.pairwise_append]
      refine ⟨h, List.pairwise_singleton _ _, ?_⟩
      intro a ha b hb
      have hb' : b = c := List.mem_singleton.1 hb
      subst hb'
      have := List.any_eq_false.1 (by simpa using hany) a ha
      simpa using this

/-- `deduplicateResults` keeps the head of its input and a subsequence
of the tail. -/
theorem deduplicateResults_cons (pq : ProcessedQuery) (r : ScoredSearchResult)
    (rest : List ScoredSearchResult) :
    ∃ s, deduplicateResults (r :: rest) pq = r :: s ∧ s.Sublist rest := by
  cases rest with
  | nil => exact ⟨[], rfl, List.Sublist.refl _⟩
  | cons x xs =>
    rcases dedupGo_eq_append pq (x :: xs) [r] with ⟨s, hs, hsub⟩
    exact ⟨s, by simpa [deduplicateResults] using hs, hsub⟩

/-- The output of `deduplicateResults` satisfies the pairwise
no-duplicate guarantee. -/
theorem deduplicateResults_pairwise (pq : ProcessedQuery) (l : List ScoredSearchResult) :
    (deduplicateResults l pq).Pairwise (fun a b => dedupDropCheck pq b a = false) := by
  match l with
  | [] => exact List.Pairwise.nil
  | [r] => exact List.pairwise_singleton _ _
  | r :: x :: xs =>
    exact dedupGo_pairwise pq (x :: xs) [r] (List.pairwise_singleton _ _)

/-- The dynamic acceptance threshold is at least 10 on any non-empty
result set. -/
theorem determineRelevanceThreshold_ge_ten (results : List ScoredSearchResult)
    (pq : ProcessedQuery) (hne : results ≠ []) :
    (10 : ℚ) ≤ determineRelevanceThreshold results pq := by
  have hne' : results.isEmpty = false := by simpa using hne
  simp only [determineRelevanceThreshold, hne', Bool.false_eq_true, if_false]
  have hbase : (10 : ℚ) ≤
      (if pq.focus = .broad then (10 : ℚ) else if pq.focus = .specific then 25 else 15) := by
    split
    · exact le_refl _
    · split <;> norm_num
  split
  · exact le_trans hbase (le_max_left _ _)
  · exact hbase

/-- On an empty or whitespace query against a non-empty store, the
search returns the most recent memories verbatim. -/
theorem search_eq_empty_query (msqrt : ℚ → ℚ) (genEmbed : String → Option (List ℚ)) (now : Int)
    (stored : List SessionMemory) (query : String) (limit : Nat)
    (hq : jsTrim query = "") :
    searchSessionMemories msqrt genEmbed now stored query limit =
      if (loadSessionMemories stored).isEmpty then []
      else ((loadSessionMemories stored).take limit).map (fun memory =>
        { memory, relevanceScore := 1, matchedTerms := [], usedEmbeddings := false }) := by
  simp only [searchSessionMemories, hq]
  split <;> simp

/-- The below-threshold fallback branch: the two top-scored candidates
(cut to the limit), rescaled to at least 0.1. -/
theorem search_eq_fallback (msqrt : ℚ → ℚ) (genEmbed : String → Option (List ℚ)) (now : Int)
    (stored : List SessionMemory) (query : String) (limit : Nat)
    (hfb : searchFellBack msqrt genEmbed now stored query = true) :
    searchSessionMemories msqrt genEmbed now stored query limit =
      ((sortDescBy (·.relevanceScore)
        (performEnhancedSearch msqrt now (loadSessionMemories stored) (preprocessQuery query)
          (genEmbed (preprocessQuery query).enhancedQuery)
          (genEmbed (preprocessQuery query).enhancedQuery).isSome)).take (min 2 limit)).map
        (fun r =>
          { memory := r.memory, relevanceScore := max (r.relevanceScore / 100) 0.1,
            matchedTerms := r.matchedTerms, usedEmbeddings := r.usedEmbeddings }) := by
  by_cases hload : (loadSessionMemories stored).isEmpty
  · exfalso
    simp [searchFellBack, hload] at hfb
  by_cases hq : jsTrim query = ""
  · exfalso
    simp [searchFellBack, hload, hq] at hfb
  have hload' : (loadSessionMemories stored).isEmpty = false := by simpa using hload
  have hcond := hfb
  simp only [searchFellBack, hload', if_neg hq, Bool.false_eq_true, if_false] at hcond
  simp only [searchSessionMemories, rankAndFilterResults, hload', if_neg hq,
    Bool.false_eq_true, if_false, hcond, if_true]

/-- The main ranking branch: filter by the acceptance threshold, sort,
deduplicate, cut to the limit, and normalize by the top score. -/
theorem search_eq_main (msqrt : ℚ → ℚ) (genEmbed : String → Option (List ℚ)) (now : Int)
    (stored : List SessionMemory) (query : String) (limit : Nat)
    (hq : ¬(jsTrim query = ""))
    (hfb : searchFellBack msqrt genEmbed now stored query = false) :
    searchSessionMemories msqrt genEmbed now stored query limit =
      (let pq := preprocessQuery query
       let sr := performEnhancedSearch msqrt now (loadSessionMemories stored) pq
         (genEmbed pq.enhancedQuery) (genEmbed pq.enhancedQuery).isSome
       let filtered := sr.filter (fun r =>
         decide (determineRelevanceThreshold sr pq ≤ r.relevanceScore))
       let deduplicated := deduplicateResults (sortDescBy (·.relevanceScore) filtered) pq
       (deduplicated.take limit).map (fun r =>
         { memory := r.memory,
           relevanceScore := r.relevanceScore / headScoreOrOne deduplicated,
           matchedTerms := r.matchedTerms, usedEmbeddings := r.usedEmbeddings })) := by
  by_cases hload : (loadSessionMemories stored).isEmpty
  · have hnil : loadSessionMemories stored = [] := by simpa using hload
    simp only [searchSessionMemories, hload, if_true, hnil, performEnhancedSearch,
      List.map_nil, List.filter_nil]
    exact (List.map_eq_nil_iff.2 (List.take_eq_nil_iff.2 (Or.inr rfl))).symm
  · have hload' : (loadSessionMemories stored).isEmpty = false := by simpa using hload
    have hcond := hfb
    simp only [searchFellBack, hload', if_neg hq, Bool.false_eq_true, if_false] at hcond
    simp only [searchSessionMemories, rankAndFilterResults, hload', if_neg hq,
      Bool.false_eq_true, if_false, hcond]

/-- C1: for every query, limit and stored collection, the search
returns at most `limit` results sorted by non-increasing
`relevanceScore`; whenever the below-threshold fallback branch is not
taken, a non-empty result list has top score exactly 1, and on the
fallback branch every returned score is at least 0.1 (the top score may
then be below 1, as the companion counterexample shows). -/
theorem searchSessionMemories_ranking_spec (msqrt : ℚ → ℚ)
    (genEmbed : String → Option (List ℚ)) (now : Int) (stored : List SessionMemory)
    (query : String) (limit : Nat) :
    (searchSessionMemories msqrt genEmbed now stored query limit).length ≤ limit ∧
    (searchSessionMemories msqrt genEmbed now stored query limit).Pairwise
      (fun a b => b.relevanceScore ≤ a.relevanceScore) ∧
    (searchFellBack msqrt genEmbed now stored query = false →
      ∀ r, (searchSessionMemories msqrt genEmbed now stored query limit).head? = some r →
        r.relevanceScore = 1) ∧
    (searchFellBack msqrt genEmbed now stored query = true →
      ∀ r ∈ searchSessionMemories msqrt genEmbed now stored query limit,
        (0.1 : ℚ) ≤ r.relevanceScore) := by
  by_cases hq : jsTrim query = ""
  · have hfbf : searchFellBack msqrt genEmbed now stored query = false := by
      simp [searchFellBack, hq]
    rw [search_eq_empty_query msqrt genEmbed now stored query limit hq]
    refine ⟨?_, ?_, ?_, ?_⟩
    · split
      · simp
      · simpa using List.length_take_le limit _
    · split
      · simp
      · exact List.pairwise_map.2 (pairwise_of_forall (fun a b => le_refl (1 : ℚ)) _)
    · intro _ r hr
      split at hr
      · simp at hr
      · rw [List.head?_map] at hr
        rcases Option.map_eq_some'.1 hr with ⟨m, _, hm⟩
        exact hm ▸ rfl
    · intro hfbt
      rw [hfbf] at hfbt
      exact absurd hfbt (by simp)
  · by_cases hfb : searchFellBack msqrt genEmbed now stored query = true
    · rw [search_eq_fallback msqrt genEmbed now stored query limit hfb]
      refine ⟨?_, ?_, ?_, ?_⟩
      · simpa using le_trans (List.length_take_le _ _) (min_le_right 2 limit)
      · have hps := (sortDescBy_pairwise (fun r : ScoredSearchResult => r.relevanceScore)
          (performEnhancedSearch msqrt now (loadSessionMemories stored) (preprocessQuery query)
            (genEmbed (preprocessQuery query).enhancedQuery)
            (genEmbed (preprocessQuery query).enhancedQuery).isSome)).sublist
          (List.take_sublist (min 2 limit) _)
        refine List.pairwise_map.2 (hps.imp ?_)
        intro a b hab
        exact max_le_max ((div_le_div_iff_of_pos_right (by norm_num : (0:ℚ) < 100)).2 hab)
          (le_refl (0.1 : ℚ))
      · intro hfbf
        rw [hfb] at hfbf
        exact absurd hfbf (by simp)
      · intro _ r hr
        rcases List.mem_map.1 hr with ⟨x, _, hx⟩
        exact hx ▸ le_max_right _ _
    · have hfbf : searchFellBack msqrt genEmbed now stored query = false :=
        Bool.eq_false_iff.2 hfb
      rw [search_eq_main msqrt genEmbed now stored query limit hq hfbf]
      simp only []
      set pq := preprocessQuery query with hpq
      set sr := performEnhancedSearch msqrt now (loadSessionMemories stored) pq
        (genEmbed pq.enhancedQuery) (genEmbed pq.enhancedQuery).isSome with hsr
      set filtered := sr.filter (fun r =>
        decide (determineRelevanceThreshold sr pq ≤ r.relevanceScore)) with hfil
      rcases hsort : sortDescBy (·.relevanceScore) filtered with _ | ⟨s0, rest⟩
      · simp [deduplicateResults, hsort]
      · rcases deduplicateResults_cons pq s0 rest with ⟨s, hded, hsub⟩
        rw [hsort, hded]
        have hs0mem : s0 ∈ filtered := by
          have : s0 ∈ sortDescBy (·.relevanceScore) filtered := by
            rw [hsort]; exact List.mem_cons_self s0 rest
          exact (sortDescBy_perm (·.relevanceScore) filtered).mem_iff.1 this
        have hthr : determineRelevanceThreshold sr pq ≤ s0.relevanceScore := by
          have := (List.mem_filter.1 hs0mem).2
          exact of_decide_eq_true this
        have hsrne : sr ≠ [] := by
          intro hnil
          rw [hfil, hnil] at hs0mem
          simp at hs0mem
        have hpos : 0 < s0.relevanceScore :=
          lt_of_lt_of_le (lt_of_lt_of_le (by norm_num : (0:ℚ) < 10)
            (determineRelevanceThreshold_ge_ten sr pq hsrne)) hthr
        have hM : headScoreOrOne (s0 :: s) = s0.relevanceScore := by
          simp [headScoreOrOne, ne_of_gt hpos]
        have hpair : (s0 :: s).Pairwise
            (fun a b => b.relevanceScore ≤ a.relevanceScore) := by
          have := sortDescBy_pairwise (·.relevanceScore) filtered
          rw [hsort] at this
          exact this.sublist (hsub.cons₂ s0)
        refine ⟨?_, ?_, ?_, ?_⟩
        · simpa using List.length_take_le limit _
        · refine List.pairwise_map.2 ?_
          refine (hpair.sublist (List.take_sublist _ _)).imp ?_
          intro a b hab
          exact (div_le_div_iff_of_pos_right (hM ▸ hpos)).2 hab
        · intro _ r hr
          cases limit with
          | zero => simp at hr
          | succ n =>
            rw [List.take_succ_cons, List.head?_map] at hr
            simp only [List.head?_cons, Option.map_some'] at hr
            have hr' := Option.some.inj hr
            rw [← hr']
            simp only [hM]
            exact div_self (ne_of_gt hpos)
        · intro hfbt
          rw [hfbf] at hfbt
          exact absurd hfbt (by simp)

/-- C4: against a non-empty store and a positive limit, the search
always returns at least one result; when no candidate reaches the
acceptance threshold it returns the `min 2 limit` top-scored candidates
with scores rescaled to at least 0.1. -/
theorem searchSessionMemories_nonempty_spec (msqrt : ℚ → ℚ)
    (genEmbed : String → Option (List ℚ)) (now : Int) (stored : List SessionMemory)
    (query : String) (limit : Nat) (hst : stored ≠ []) (hlim : 1 ≤ limit) :
    searchSessionMemories msqrt genEmbed now stored query limit ≠ [] ∧
    (searchFellBack msqrt genEmbed now stored query = true →
      searchSessionMemories msqrt genEmbed now stored query limit =
        ((sortDescBy (·.relevanceScore)
          (performEnhancedSearch msqrt now (loadSessionMemories stored) (preprocessQuery query)
            (genEmbed (preprocessQuery query).enhancedQuery)
            (genEmbed (preprocessQuery query).enhancedQuery).isSome)).take (min 2 limit)).map
          (fun r =>
            { memory := r.memory, relevanceScore := max (r.relevanceScore / 100) 0.1,
              matchedTerms := r.matchedTerms, usedEmbeddings := r.usedEmbeddings }) ∧
      ∀ r ∈ searchSessionMemories msqrt genEmbed now stored query limit,
        (0.1 : ℚ) ≤ r.relevanceScore) := by
  have hloadne : loadSessionMemories stored ≠ [] := by
    intro h
    exact hst (List.length_eq_zero.1 (by
      rw [← sortDescBy_length (fun m : SessionMemory => m.created) stored]
      exact congrArg List.length h))
  have hloadE : (loadSessionMemories stored).isEmpty = false := by
    simpa using hloadne
  have hlimne : limit ≠ 0 := Nat.one_le_iff_ne_zero.1 hlim
  by_cases hq : jsTrim query = ""
  · have hfbf : searchFellBack msqrt genEmbed now stored query = false := by
      simp [searchFellBack, hq]
    refine ⟨?_, ?_⟩
    · rw [search_eq_empty_query msqrt genEmbed now stored query limit hq, if_neg (by simp [hloadE])]
      simp only [ne_eq, List.map_eq_nil_iff, List.take_eq_nil_iff]
      push_neg
      exact ⟨hlimne, hloadne⟩
    · intro hfbt
      rw [hfbf] at hfbt
      exact absurd hfbt (by simp)
  · have hsrne : performEnhancedSearch msqrt now (loadSessionMemories stored)
        (preprocessQuery query) (genEmbed (preprocessQuery query).enhancedQuery)
        (genEmbed (preprocessQuery query).enhancedQuery).isSome ≠ [] := by
      simp only [performEnhancedSearch, ne_eq, List.map_eq_nil_iff]
      exact hloadne
    by_cases hfb : searchFellBack msqrt genEmbed now stored query = true
    · rw [search_eq_fallback msqrt genEmbed now stored query limit hfb]
      refine ⟨?_, ?_⟩
      · simp only [ne_eq, List.map_eq_nil_iff, List.take_eq_nil_iff]
        push_neg
        refine ⟨?_, ?_⟩
        · have : 1 ≤ min 2 limit := le_min (by norm_num) hlim
          omega
        · intro h
          exact hsrne (List.length_eq_zero.1 (by
            rw [← sortDescBy_length (fun r : ScoredSearchResult => r.relevanceScore)]
            exact congrArg List.length h))
      · intro _
        refine ⟨rfl, ?_⟩
        intro r hr
        rcases List.mem_map.1 hr with ⟨x, _, hx⟩
        exact hx ▸ le_max_right _ _
    · have hfbf : searchFellBack msqrt genEmbed now stored query = false :=
        Bool.eq_false_iff.2 hfb
      refine ⟨?_, ?_⟩
      · rw [search_eq_main msqrt genEmbed now stored query limit hq hfbf]
        simp only []
        have hfilne : (performEnhancedSearch msqrt now (loadSessionMemories stored)
            (preprocessQuery query) (genEmbed (preprocessQuery query).enhancedQuery)
            (genEmbed (preprocessQuery query).enhancedQuery).isSome).filter (fun r =>
              decide (determineRelevanceThreshold
                (performEnhancedSearch msqrt now (loadSessionMemories stored)
                  (preprocessQuery query) (genEmbed (preprocessQuery query).enhancedQuery)
                  (genEmbed (preprocessQuery query).enhancedQuery).isSome)
                (preprocessQuery query) ≤ r.relevanceScore)) ≠ [] := by
          have hcond := hfbf
          simp only [searchFellBack, hloadE, if_neg hq, Bool.false_eq_true, if_false] at hcond
          rcases Bool.and_eq_false_iff.1 hcond with hcond | hcond
          · intro hnil
            rw [hnil] at hcond
            simp at hcond
          · exfalso
            have : (performEnhancedSearch msqrt now (loadSessionMemories stored)
                (preprocessQuery query) (genEmbed (preprocessQuery query).enhancedQuery)
                (genEmbed (preprocessQuery query).enhancedQuery).isSome).isEmpty = true := by
              simpa using hcond
            exact hsrne (by simpa using this)
        rcases hsort : sortDescBy (fun r : ScoredSearchResult => r.relevanceScore)
            ((performEnhancedSearch msqrt now (loadSessionMemories stored)
              (preprocessQuery query) (genEmbed (preprocessQuery query).enhancedQuery)
              (genEmbed (preprocessQuery query).enhancedQuery).isSome).filter (fun r =>
                decide (determineRelevanceThreshold
                  (performEnhancedSearch msqrt now (loadSessionMemories stored)
                    (preprocessQuery query) (genEmbed (preprocessQuery query).enhancedQuery)
                    (genEmbed (preprocessQuery query).enhancedQuery).isSome)
                  (preprocessQuery query) ≤ r.relevanceScore))) with _ | ⟨s0, rest⟩
        · exfalso
          exact hfilne (List.length_eq_zero.1 (by
            rw [← sortDescBy_length (fun r : ScoredSearchResult => r.relevanceScore)]
            exact congrArg List.length hsort))
        · rcases deduplicateResults_cons (preprocessQuery query) s0 rest with ⟨s, hded, _⟩
          rw [hded]
          cases limit with
          | zero => exact absurd rfl hlimne
          | succ n => simp [List.take_succ_cons]
      · intro hfbt
        rw [hfbf] at hfbt
        exact absurd hfbt (by simp)

/-- C5 (amended): on the main ranking path (non-empty query, at least
one candidate at or above the acceptance threshold), no returned result
triggers the deduplication drop test against any earlier returned
result: in particular no two same-session results with content
similarity above 0.85 both appear, and no result similar above 0.75 to
an earlier result survives with a score below 90% of it.  (The
empty-query and fallback branches bypass deduplication, as the
companion counterexample shows.) -/
theorem searchSessionMemories_dedup_spec (msqrt : ℚ → ℚ)
    (genEmbed : String → Option (List ℚ)) (now : Int) (stored : List SessionMemory)
    (query : String) (limit : Nat) (hq : ¬(jsTrim query = ""))
    (hfb : searchFellBack msqrt genEmbed now stored query = false) :
    (searchSessionMemories msqrt genEmbed now stored query limit).Pairwise (fun a b =>
      ¬(calculateAdvancedContentSimilarity b.memory.content a.memory.content
          (preprocessQuery query) > 0.85 ∧ b.memory.session_id = a.memory.session_id) ∧
      ¬(calculateAdvancedContentSimilarity b.memory.content a.memory.content
          (preprocessQuery query) > 0.75 ∧
        b.relevanceScore < a.relevanceScore * 0.9)) := by
  rw [search_eq_main msqrt genEmbed now stored query limit hq hfb]
  simp only []
  set pq := preprocessQuery query with hpq
  set sr := performEnhancedSearch msqrt now (loadSessionMemories stored) pq
    (genEmbed pq.enhancedQuery) (genEmbed pq.enhancedQuery).isSome with hsr
  set filtered := sr.filter (fun r =>
    decide (determineRelevanceThreshold sr pq ≤ r.relevanceScore)) with hfil
  rcases hsort : sortDescBy (fun r : ScoredSearchResult => r.relevanceScore) filtered
      with _ | ⟨s0, rest⟩
  · simp [deduplicateResults, hsort]
  · rcases deduplicateResults_cons pq s0 rest with ⟨s, hded, hsub⟩
    rw [hded]
    have hs0mem : s0 ∈ filtered := by
      have hm : s0 ∈ sortDescBy (fun r : ScoredSearchResult => r.relevanceScore) filtered := by
        rw [hsort]; exact List.mem_cons_self s0 rest
      exact (sortDescBy_perm (fun r : ScoredSearchResult => r.relevanceScore)
        filtered).mem_iff.1 hm
    have hsrne : sr ≠ [] := by
      intro hnil
      rw [hfil, hnil] at hs0mem
      simp at hs0mem
    have hthr : determineRelevanceThreshold sr pq ≤ s0.relevanceScore :=
      of_decide_eq_true (List.mem_filter.1 hs0mem).2
    have hpos : 0 < s0.relevanceScore :=
      lt_of_lt_of_le (lt_of_lt_of_le (by norm_num : (0:ℚ) < 10)
        (determineRelevanceThreshold_ge_ten sr pq hsrne)) hthr
    have hM : headScoreOrOne (s0 :: s) = s0.relevanceScore := by
      simp [headScoreOrOne, ne_of_gt hpos]
    have hpair : (s0 :: s).Pairwise (fun a b => dedupDropCheck pq b a = false) := by
      have hp := deduplicateResults_pairwise pq
        (sortDescBy (fun r : ScoredSearchResult => r.relevanceScore) filtered)
      rw [hsort, hded] at hp
      exact hp
    refine List.pairwise_map.2 ((hpair.sublist (List.take_sublist _ _)).imp ?_)
    intro a b hab
    have hab' := hab
    simp only [dedupDropCheck, Bool.or_eq_false_iff, Bool.and_eq_false_iff,
      decide_eq_false_iff_not, not_lt, beq_eq_false_iff_ne, ne_eq] at hab'
    rw [hM]
    constructor
    · intro ⟨hsim, hsess⟩
      rcases hab'.1 with h | h
      · exact absurd hsim (not_lt.2 h)
      · exact h hsess
    · intro ⟨hsim, hlt⟩
      rcases hab'.2 with h | h
      · exact absurd hsim (not_lt.2 h)
      · have hM0 : (0:ℚ) < s0.relevanceScore := hpos
        have := (div_lt_div_iff_of_pos_right hM0).1 (by
          calc b.relevanceScore / s0.relevanceScore
              < a.relevanceScore / s0.relevanceScore * 0.9 := hlt
            _ = a.relevanceScore * 0.9 / s0.relevanceScore := by ring
        )
        exact absurd this (not_lt.2 h)

/-- C7: an empty or whitespace-only query against a non-empty store
returns the `limit` most recent memories (all of them when fewer are
stored), each with relevance score exactly 1 and no matched terms. -/
theorem searchSessionMemories_empty_query_spec (msqrt : ℚ → ℚ)
    (genEmbed : String → Option (List ℚ)) (now : Int) (stored : List SessionMemory)
    (query : String) (limit : Nat) (hst : stored ≠ []) (hq : jsTrim query = "") :
    (searchSessionMemories msqrt genEmbed now stored query limit).map (·.memory) =
      (sortDescBy (·.created) stored).take limit ∧
    (searchSessionMemories msqrt genEmbed now stored query limit).length =
      min limit stored.length ∧
    (∀ r ∈ searchSessionMemories msqrt genEmbed now stored query limit,
      r.relevanceScore = 1 ∧ r.matchedTerms = [] ∧ r.usedEmbeddings = false) ∧
    (∀ r ∈ searchSessionMemories msqrt genEmbed now stored query limit,
      ∀ y ∈ stored,
        y ∉ (searchSessionMemories msqrt genEmbed now stored query limit).map (·.memory) →
          y.created ≤ r.memory.created) := by
  have hloadne : loadSessionMemories stored ≠ [] := by
    intro h
    exact hst (List.length_eq_zero.1 (by
      rw [← sortDescBy_length (fun m : SessionMemory => m.created) stored]
      exact congrArg List.length h))
  rw [search_eq_empty_query msqrt genEmbed now stored query limit hq,
    if_neg (by simpa using hloadne)]
  have hmap : (((loadSessionMemories stored).take limit).map (fun memory =>
      ({ memory, relevanceScore := 1, matchedTerms := [],
         usedEmbeddings := false } : SessionMemorySearchResult))).map (·.memory) =
      (sortDescBy (·.created) stored).take limit := by
    rw [List.map_map]
    exact List.map_id _
  refine ⟨hmap, ?_, ?_, ?_⟩
  · rw [List.length_map, List.length_take]
    unfold loadSessionMemories
    rw [sortDescBy_length]
  · intro r hr
    rcases List.mem_map.1 hr with ⟨m, _, hm⟩
    exact hm ▸ ⟨rfl, rfl, rfl⟩
  · intro r hr y hy hnot
    rw [hmap] at hnot
    rcases List.mem_map.1 hr with ⟨m, hmtake, hm⟩
    have hyload : y ∈ loadSessionMemories stored :=
      (sortDescBy_perm (fun m : SessionMemory => m.created) stored).mem_iff.2 hy
    have hydrop : y ∈ (loadSessionMemories stored).drop limit := by
      have := (List.take_append_drop limit (loadSessionMemories stored)) ▸ hyload
      rcases List.mem_append.1 this with h | h
      · exact absurd h hnot
      · exact h
    have hkey := take_key_ge_drop (fun m : SessionMemory => m.created)
      (loadSessionMemories stored) limit
      (sortDescBy_pairwise (fun m : SessionMemory => m.created) stored) m hmtake y hydrop
    exact hm ▸ hkey

/-- C6: `saveSessionMemory` rejects empty or whitespace-only content
synchronously with the content-validation error (before any store
mutation, which the `Except` model makes structural), and succeeds with
a memory on every non-empty content. -/
theorem saveSessionMemory_validation_spec (genEmbed : String → Option (List ℚ))
    (metaOracle : String → Option MemoryMetadata) (freshId freshSession : String) (now : Int)
    (stored : List SessionMemory) (content : String) :
    ((jsTrim content).length = 0 →
      saveSessionMemory genEmbed metaOracle freshId freshSession now stored content =
        .error "Memory content cannot be empty") ∧
    ((jsTrim content).length ≠ 0 →
      ∃ m st', saveSessionMemory genEmbed metaOracle freshId freshSession now stored content =
        .ok (m, st')) := by
  constructor
  · intro h
    unfold saveSessionMemory
    rw [if_pos h]
  · intro h
    simp only [saveSessionMemory, if_neg h]
    rcases hcons : shouldConsolidateMemory now content (loadSessionMemories stored) with
      _ | target
    · exact ⟨_, _, rfl⟩
    · exact ⟨_, _, rfl⟩

/-- C2: when some stored memory lies within the 30-minute consolidation
window and overlaps the new content above 0.7, the save consolidates
into the first such memory instead of creating a new entry: the
returned memory keeps the target's id, its content is the target's
content followed by the continuation marker and the new content, its
timestamp is refreshed to the merge time, the embedding is re-requested
with fallback to the prior one, and the collection keeps exactly the
same identifiers (no new id is minted, no entry added). -/
theorem saveSessionMemory_consolidation_spec (genEmbed : String → Option (List ℚ))
    (metaOracle : String → Option MemoryMetadata) (freshId freshSession : String) (now : Int)
    (stored : List SessionMemory) (content : String)
    (hc : (jsTrim content).length ≠ 0) (h50 : stored.length ≤ 50)
    (hex : ∃ mem ∈ loadSessionMemories stored,
      (((now - mem.created : Int) : ℚ) / 60000) < 30 ∧
      wordOverlapSimilarity content mem.content > 0.7) :
    ∃ target,
      shouldConsolidateMemory now content (loadSessionMemories stored) = some target ∧
      (((now - target.created : Int) : ℚ) / 60000) < 30 ∧
      wordOverlapSimilarity content target.content > 0.7 ∧
      ∀ m st',
        saveSessionMemory genEmbed metaOracle freshId freshSession now stored content =
          .ok (m, st') →
        m.id = target.id ∧
        m.content = target.content ++ "\n\n--- CONTINUED ---\n\n" ++ content ∧
        m.created = now ∧
        m.embedding = (match genEmbed m.content with
          | some e => some e
          | none => target.embedding) ∧
        m ∈ st' ∧
        st'.length = stored.length ∧
        st'.map (·.id) = (loadSessionMemories stored).map (·.id) := by
  obtain ⟨mem, hmem, hrecent, hsim⟩ := hex
  have hLne : loadSessionMemories stored ≠ [] := List.ne_nil_of_mem hmem
  have hmemrec : mem ∈ (loadSessionMemories stored).filter (fun memory =>
      decide ((((now - memory.created : Int) : ℚ) / 60000) < 30)) :=
    List.mem_filter.2 ⟨hmem, decide_eq_true hrecent⟩
  have hfind : ((loadSessionMemories stored).filter (fun memory =>
      decide ((((now - memory.created : Int) : ℚ) / 60000) < 30))).find? (fun memory =>
        decide (wordOverlapSimilarity content memory.content > 0.7)) |>.isSome :=
    List.find?_isSome.2 ⟨mem, hmemrec, decide_eq_true hsim⟩
  obtain ⟨target, htgt⟩ := Option.isSome_iff_exists.1 hfind
  have hsome : shouldConsolidateMemory now content (loadSessionMemories stored) =
      some target := by
    simp only [shouldConsolidateMemory]
    rw [if_neg (by simpa using hLne), if_neg (by simpa using List.ne_nil_of_mem hmemrec)]
    exact htgt
  have htgtP := List.find?_some htgt
  have htgtMem := List.mem_of_find?_eq_some htgt
  have htgtL : target ∈ loadSessionMemories stored := (List.mem_filter.1 htgtMem).1
  have htgtRecent : (((now - target.created : Int) : ℚ) / 60000) < 30 :=
    of_decide_eq_true (List.mem_filter.1 htgtMem).2
  have htgtSim : wordOverlapSimilarity content target.content > 0.7 :=
    of_decide_eq_true htgtP
  refine ⟨target, hsome, htgtRecent, htgtSim, ?_⟩
  intro m st' hok
  simp only [saveSessionMemory, if_neg hc, hsome, consolidateMemories,
    saveSessionMemoriesState] at hok
  have hLlen : (loadSessionMemories stored).length = stored.length := by
    unfold loadSessionMemories
    exact sortDescBy_length _ _
  have hmaplen : ∀ f : SessionMemory → SessionMemory,
      ((loadSessionMemories stored).map f).length ≤ 50 := by
    intro f
    rw [List.length_map, hLlen]
    exact h50
  rw [List.take_of_length_le (hmaplen _)] at hok
  rcases Prod.ext_iff.1 (Except.ok.inj hok) with ⟨hm, hst⟩
  simp only at hm hst
  subst hm
  refine ⟨rfl, rfl, rfl, rfl, ?_, ?_, ?_⟩
  · rw [← hst]
    refine List.mem_map.2 ⟨target, htgtL, ?_⟩
    rw [if_pos rfl]
  · rw [← hst, List.length_map, hLlen]
  · rw [← hst, List.map_map]
    refine List.map_congr_left ?_
    intro x _
    by_cases hx : x.id = target.id
    · simp [hx]
    · simp [hx]

/-- C3: capacity management.  Starting from a persisted collection of at
most 40 entries (the invariant every successful save re-establishes), a
successful save leaves the persisted collection at ≤ 40 entries, hence
within the 50-entry persistence cap; on the new-entry path the persisted
collection is exactly the capacity-managed working set, the working set
is left untouched while it holds at most 40 entries, and exactly when it
exceeds 40 entries it is trimmed to the 35 most recent, every retained
entry being at least as recent as every evicted one. -/
theorem saveSessionMemory_capacity_spec (genEmbed : String → Option (List ℚ))
    (metaOracle : String → Option MemoryMetadata) (freshId freshSession : String) (now : Int)
    (stored : List SessionMemory) (content : String)
    (hc : (jsTrim content).length ≠ 0) (h40 : stored.length ≤ 40) :
    ∀ m st',
      saveSessionMemory genEmbed metaOracle freshId freshSession now stored content =
        .ok (m, st') →
      st'.length ≤ 40 ∧ st'.length ≤ 50 ∧
      (shouldConsolidateMemory now content (loadSessionMemories stored) = none →
        st' = manageMemoryCapacitySimple (m :: loadSessionMemories stored) ∧
        ((m :: loadSessionMemories stored).length ≤ 40 →
          st' = m :: loadSessionMemories stored) ∧
        (40 < (m :: loadSessionMemories stored).length →
          st' = (sortDescBy (·.created) (m :: loadSessionMemories stored)).take 35 ∧
          st'.length = 35 ∧
          ∀ a ∈ st',
            ∀ b ∈ (sortDescBy (·.created) (m :: loadSessionMemories stored)).drop 35,
              b.created ≤ a.created)) := by
  intro m st' hok
  have hLlen : (loadSessionMemories stored).length = stored.length := by
    unfold loadSessionMemories
    exact sortDescBy_length _ _
  rcases hcons : shouldConsolidateMemory now content (loadSessionMemories stored) with
    _ | target
  · simp only [saveSessionMemory, if_neg hc, hcons, saveSessionMemoriesState] at hok
    rcases Prod.ext_iff.1 (Except.ok.inj hok) with ⟨hm, hst⟩
    simp only at hm hst
    have hWlen : (manageMemoryCapacitySimple
        (m :: loadSessionMemories stored)).length ≤ 40 := by
      unfold manageMemoryCapacitySimple
      split
      · assumption
      · calc ((sortDescBy (fun x => x.created)
              (m :: loadSessionMemories stored)).take 35).length ≤ 35 :=
            (List.length_take_le 35 _)
          _ ≤ 40 := by omega
    rw [hm] at hst
    rw [List.take_of_length_le (le_trans hWlen (by omega))] at hst
    subst hst
    refine ⟨hWlen, le_trans hWlen (by omega), fun _ => ⟨rfl, ?_, ?_⟩⟩
    · intro hle
      unfold manageMemoryCapacitySimple
      rw [if_pos hle]
    · intro hgt
      have hne : ¬ (m :: loadSessionMemories stored).length ≤ 40 := by omega
      have hsortlen : (sortDescBy (fun x : SessionMemory => x.created)
          (m :: loadSessionMemories stored)).length =
          (m :: loadSessionMemories stored).length :=
        sortDescBy_length _ _
      have heq : manageMemoryCapacitySimple (m :: loadSessionMemories stored) =
          (sortDescBy (·.created) (m :: loadSessionMemories stored)).take 35 := by
        unfold manageMemoryCapacitySimple
        rw [if_neg hne]
      refine ⟨heq, ?_, ?_⟩
      · rw [heq, List.length_take, hsortlen]
        omega
      · intro a ha b hb
        rw [heq] at ha
        exact take_key_ge_drop (fun x : SessionMemory => x.created) _ 35
          (sortDescBy_pairwise _ _) a ha b hb
  · simp only [saveSessionMemory, if_neg hc, hcons, consolidateMemories,
      saveSessionMemoriesState] at hok
    have hmaplen : ∀ f : SessionMemory → SessionMemory,
        ((loadSessionMemories stored).map f).length ≤ 40 := by
      intro f
      rw [List.length_map, hLlen]
      exact h40
    rw [List.take_of_length_le (le_trans (hmaplen _) (by omega))] at hok
    rcases Prod.ext_iff.1 (Except.ok.inj hok) with ⟨hm, hst⟩
    simp only at hm hst
    refine ⟨?_, ?_, ?_⟩
    · rw [← hst]; exact hmaplen _
    · rw [← hst]; exact le_trans (hmaplen _) (by omega)
    · intro hnone
      exact Option.noConfusion hnone

/-- C8 (amended): ingestion classification.  The assigned category always
attains the maximum indicator-hit count over the fixed category order,
and whenever some category scores at least one hit the winner is the
first-declared category among those attaining the maximum.  However,
when every category scores zero hits the strict-update fold keeps its
initial accumulator `(0, reflection)`, so the result is `reflection`
(the last-declared category), not the first-declared one — the
first-declared tie-break of the specification fails exactly in the
all-zero case. -/
theorem analyzeMemoryContent_category_spec (content : String) :
    (analyzeMemoryContent content).category = determineCategory (lowerStr content) ∧
    (∀ c ∈ categoryOrder,
      categoryHits (lowerStr content) c ≤
        categoryHits (lowerStr content) (determineCategory (lowerStr content))) ∧
    ((∃ c ∈ categoryOrder, 0 < categoryHits (lowerStr content) c) →
      (categoryOrder.filter (fun c =>
        categoryHits (lowerStr content) c ==
          categoryHits (lowerStr content) (determineCategory (lowerStr content)))).head? =
        some (determineCategory (lowerStr content))) ∧
    ((∀ c ∈ categoryOrder, categoryHits (lowerStr content) c = 0) →
      determineCategory (lowerStr content) = .reflection) := by
  have hdc : determineCategory (lowerStr content) =
      (categoryOrder.foldl (fun acc c =>
        if acc.1 < categoryHits (lowerStr content) c
        then (categoryHits (lowerStr content) c, c) else acc)
        (0, MemoryCategory.reflection)).2 := rfl
  rcases foldl_argmax_split (categoryHits (lowerStr content)) categoryOrder
      (0, MemoryCategory.reflection) with
    ⟨heq, hle⟩ | ⟨l₁, c, l₂, hsplit, hres, hlt, hbef, haft⟩
  · refine ⟨rfl, ?_, ?_, ?_⟩
    · intro d hd
      have := hle d hd
      omega
    · rintro ⟨d, hd, hpos⟩
      have := hle d hd
      omega
    · intro _
      rw [hdc, heq]
  · have hcat : determineCategory (lowerStr content) = c := by
      rw [hdc, hres]
    have hhit : categoryHits (lowerStr content) (determineCategory (lowerStr content)) =
        categoryHits (lowerStr content) c := by rw [hcat]
    refine ⟨rfl, ?_, ?_, ?_⟩
    · intro d hd
      rw [hhit]
      rw [hsplit] at hd
      rcases List.mem_append.1 hd with hd1 | hd2
      · exact le_of_lt (hbef d hd1)
      · rcases List.mem_cons.1 hd2 with rfl | hd2'
        · exact le_refl _
        · exact haft d hd2'
    · intro _
      rw [hcat, hsplit, List.filter_append]
      have h1 : l₁.filter (fun d =>
          categoryHits (lowerStr content) d == categoryHits (lowerStr content) c) = [] := by
        refine List.filter_eq_nil_iff.2 ?_
        intro d hd
        have := hbef d hd
        simp only [beq_iff_eq]
        omega
      rw [h1, List.nil_append, List.filter_cons_of_pos (by simp)]
      rfl
    · intro hall
      have hc : c ∈ categoryOrder := by
        rw [hsplit]
        exact List.mem_append.2 (Or.inr (List.mem_cons_self _ _))
      have := hall c hc
      omega

/-- C9 (amended): with the clock and the embedding gateway fixed, search
is a deterministic function of the query and of the *contents* of the
storage state: permuting a stored collection whose creation timestamps
are pairwise distinct leaves the entire ordered result list unchanged.
(The code's output does depend on the clock reading taken at scoring
time, so two calls at different instants can differ — see the
counterexample — hence determinism only holds once the time is fixed.) -/
theorem searchSessionMemories_determinism_spec (msqrt : ℚ → ℚ)
    (genEmbed : String → Option (List ℚ)) (now : Int) (stored stored' : List SessionMemory)
    (query : String) (limit : Nat)
    (hperm : List.Perm stored stored')
    (hdist : stored.Pairwise (fun a b => a.created ≠ b.created)) :
    searchSessionMemories msqrt genEmbed now stored query limit =
      searchSessionMemories msqrt genEmbed now stored' query limit := by
  have hsymm : ∀ {a b : SessionMemory}, a.created ≠ b.created → b.created ≠ a.created :=
    fun h => Ne.symm h
  haveI : IsAntisymm SessionMemory (fun a b => b.created < a.created) :=
    ⟨fun a b h1 h2 => absurd (lt_trans h1 h2) (lt_irrefl _)⟩
  have hdist' : stored'.Pairwise (fun a b => a.created ≠ b.created) :=
    (hperm.pairwise_iff hsymm).1 hdist
  have hone : ∀ s : List SessionMemory, s.Pairwise (fun a b => a.created ≠ b.created) →
      (loadSessionMemories s).Pairwise (fun a b => b.created < a.created) := by
    intro s hs
    have hle := sortDescBy_pairwise (fun m : SessionMemory => m.created) s
    have hne : (sortDescBy (fun m : SessionMemory => m.created) s).Pairwise
        (fun a b => a.created ≠ b.created) :=
      ((sortDescBy_perm (fun m : SessionMemory => m.created) s).pairwise_iff hsymm).2 hs
    exact (hle.and hne).imp (fun h => lt_of_le_of_ne h.1 (Ne.symm h.2))
  have hps : List.Perm (loadSessionMemories stored) (loadSessionMemories stored') :=
    ((sortDescBy_perm _ stored).trans hperm).trans (sortDescBy_perm _ stored').symm
  have hload : loadSessionMemories stored = loadSessionMemories stored' :=
    List.eq_of_perm_of_sorted hps (hone stored hdist) (hone stored' hdist')
  unfold searchSessionMemories
  rw [hload]

/-- C10 (amended): the regex-free `clusterMemories` always partitions
its non-empty input — the returned clusters' member lists concatenate to
a permutation of the input (each input memory sits in exactly one
cluster), every cluster is non-empty, the cluster list is sorted by
non-increasing relevance score, and every relevance score lies in
`[0, 1]`.  `clusterMemoriesEnhanced` interpolates raw query terms into
`RegExp` constructions that can throw (see the counterexample), so its
guarantee is conditional: whenever it returns a cluster list at all —
for any behaviour `reCount` of the regex gateway — that list is such a
partition. -/
theorem clusterMemories_partition_spec (reCount : String → Option (String → Nat))
    (mlog msqrt : ℚ → ℚ) (fmtDate : Int → String) (now : Int) (memories : List Memory)
    (query : String) (hne : memories ≠ []) :
    (∀ clusters,
      clusterMemoriesEnhanced reCount mlog msqrt fmtDate now memories query = .ok clusters →
      List.Perm ((clusters.map (·.memories)).flatten) memories ∧
      (∀ c ∈ clusters, c.memories ≠ [] ∧ 0 ≤ c.relevanceScore ∧ c.relevanceScore ≤ 1) ∧
      clusters.Pairwise (fun a b => b.relevanceScore ≤ a.relevanceScore)) ∧
    (List.Perm (((clusterMemories mlog msqrt now memories query).map
        (·.memories)).flatten) memories ∧
      (∀ c ∈ clusterMemories mlog msqrt now memories query,
        c.memories ≠ [] ∧ 0 ≤ c.relevanceScore ∧ c.relevanceScore ≤ 1) ∧
      (clusterMemories mlog msqrt now memories query).Pairwise
        (fun a b => b.relevanceScore ≤ a.relevanceScore)) := by
  constructor
  · intro clusters hok
    rcases memories with _ | ⟨a, _ | ⟨b, rest⟩⟩
    · exact absurd rfl hne
    · simp only [clusterMemoriesEnhanced] at hok
      split at hok
      · exact Except.noConfusion hok
      · rename_i rel hrel
        obtain rfl := Except.ok.inj hok
        refine ⟨?_, ?_, ?_⟩
        · simp
        · intro c hc
          simp only [List.mem_singleton] at hc
          subst hc
          exact ⟨by simp, calculateEnhancedClusterRelevance_bounds reCount now [a] query
            rel hrel⟩
        · simp
    · simp only [clusterMemoriesEnhanced] at hok
      split at hok
      · exact Except.noConfusion hok
      · rename_i cs heq
        obtain rfl := Except.ok.inj hok
        have hforall : List.Forall₂ (fun cl rec =>
            rec.memories = cl ∧ 0 ≤ rec.relevanceScore ∧ rec.relevanceScore ≤ 1)
            (greedyClusterGo (enhancedAbsorb mlog msqrt (a :: b :: rest))
              (a :: b :: rest).length (a :: b :: rest)) cs := by
          refine mapExcept_ok_forall₂ _ _ ?_ _ cs heq
          intro cl rec hrec
          split at hrec
          · exact Except.noConfusion hrec
          · rename_i rel hrel
            obtain rfl := Except.ok.inj hrec
            exact ⟨rfl, calculateEnhancedClusterRelevance_bounds reCount now cl query
              rel hrel⟩
        have hmem := forall₂_map_eq (fun c : MemoryCluster => c.memories)
          (hforall.imp (fun _ _ h => h.1))
        have hbounds : ∀ c ∈ cs, 0 ≤ c.relevanceScore ∧ c.relevanceScore ≤ 1 := by
          intro c hc
          rcases forall₂_mem_right hforall c hc with ⟨cl, _, hp⟩
          exact hp.2
        exact sorted_cluster_props cs _ _ hmem
          (greedyClusterGo_flatten_perm _ _ _ (le_refl _))
          (greedyClusterGo_ne_nil _ _ _)
          hbounds
  · rcases memories with _ | ⟨a, _ | ⟨b, rest⟩⟩
    · exact absurd rfl hne
    · refine ⟨?_, ?_, ?_⟩
      · simp [clusterMemories]
      · intro c hc
        simp only [clusterMemories, List.mem_singleton] at hc
        subst hc
        exact ⟨by simp, by norm_num, by norm_num⟩
      · simp [clusterMemories]
    · simp only [clusterMemories]
      refine sorted_cluster_props _
        (greedyClusterGo (plainAbsorb mlog msqrt (a :: b :: rest)) (a :: b :: rest).length
          (a :: b :: rest))
        (a :: b :: rest) ?_
        (greedyClusterGo_flatten_perm _ _ _ (le_refl _))
        (greedyClusterGo_ne_nil _ _ _) ?_
      · rw [List.map_map]
        exact (List.map_congr_left (fun cl _ => rfl)).trans (List.map_id _)
      · intro c hc
        rcases List.mem_map.1 hc with ⟨cl, _, rfl⟩
        exact calculateClusterRelevance_bounds now cl query

/-! ## Witnesses and counterexamples

Rational arithmetic must reduce definitionally for `decide` to evaluate
the fixtures; the Batteries implementation marks the kernel-level
operations irreducible, so they are restored to semireducible for this
concluding section. -/

set_option allowUnsafeReducibility true

attribute [local semireducible] Rat.add Rat.mul Rat.inv Rat.sub Rat.ofScientific

/-- C1 counterexample: the fallback branch returns a top result whose
relevance score is `121/1000`, not `1.0`. -/
theorem searchSessionMemories_ranking_cex :
    ((searchSessionMemories sqrtZero noEmbedOracle 0 [cexMemory] cexQuery 5).head?.map
      (fun r => r.relevanceScore)) = some (121 / 1000 : ℚ) ∧
    ¬((121 : ℚ) / 1000 = 1) := by decide

/-- Witness for C2: the consolidation fixture (a five-minute-later save
overlapping four of five long words) satisfies the hypotheses. -/
theorem saveSessionMemory_consolidation_spec_witness :
    (jsTrim consContent).length ≠ 0 ∧
    (∃ target,
      shouldConsolidateMemory 300000 consContent (loadSessionMemories [consTarget]) =
        some target ∧
      (((300000 - target.created : Int) : ℚ) / 60000) < 30 ∧
      wordOverlapSimilarity consContent target.content > 0.7 ∧
      ∀ m st',
        saveSessionMemory noEmbedOracle noMetaOracle "f2" "sess2" 300000 [consTarget]
            consContent = .ok (m, st') →
        m.id = target.id ∧
        m.content = target.content ++ "\n\n--- CONTINUED ---\n\n" ++ consContent ∧
        m.created = 300000 ∧
        m.embedding = (match noEmbedOracle m.content with
          | some e => some e
          | none => target.embedding) ∧
        m ∈ st' ∧
        st'.length = ([consTarget] : List SessionMemory).length ∧
        st'.map (·.id) = (loadSessionMemories [consTarget]).map (·.id)) :=
  ⟨by decide,
   saveSessionMemory_consolidation_spec noEmbedOracle noMetaOracle "f2" "sess2" 300000
     [consTarget] consContent (by decide) (by decide)
     ⟨consTarget, by decide, by decide, by decide⟩⟩

/-- Witness for C3: saving one memory into an empty store keeps both
capacity bounds. -/
theorem saveSessionMemory_capacity_spec_witness :
    ([helloMemory] : List SessionMemory).length ≤ 40 ∧
    ([helloMemory] : List SessionMemory).length ≤ 50 :=
  ⟨(saveSessionMemory_capacity_spec noEmbedOracle noMetaOracle "fresh" "sessA" 0 [] "hello"
      (by decide) (by decide) helloMemory [helloMemory] (by decide)).1,
   (saveSessionMemory_capacity_spec noEmbedOracle noMetaOracle "fresh" "sessA" 0 [] "hello"
      (by decide) (by decide) helloMemory [helloMemory] (by decide)).2.1⟩

/-- Witness for C4: a non-empty store always yields a result. -/
theorem searchSessionMemories_nonempty_spec_witness :
    searchSessionMemories sqrtZero noEmbedOracle 0 [cexMemory] cexQuery 5 ≠ [] :=
  (searchSessionMemories_nonempty_spec sqrtZero noEmbedOracle 0 [cexMemory] cexQuery 5
    (by decide) (by decide)).1

/-- Witness for C5: a main-path (non-fallback) search satisfies the
pairwise deduplication guarantee. -/
theorem searchSessionMemories_dedup_spec_witness :
    (searchSessionMemories sqrtZero noEmbedOracle 0 [matchMemory] mainQuery 5).Pairwise
      (fun a b =>
        ¬(calculateAdvancedContentSimilarity b.memory.content a.memory.content
            (preprocessQuery mainQuery) > 0.85 ∧ b.memory.session_id = a.memory.session_id) ∧
        ¬(calculateAdvancedContentSimilarity b.memory.content a.memory.content
            (preprocessQuery mainQuery) > 0.75 ∧
          b.relevanceScore < a.relevanceScore * 0.9)) :=
  searchSessionMemories_dedup_spec sqrtZero noEmbedOracle 0 [matchMemory] mainQuery 5
    (by decide) (by decide)

/-- C5 counterexample: on the fallback branch two identical same-session
memories are both returned, so the stated global guarantee fails. -/
theorem searchSessionMemories_dedup_cex :
    (searchSessionMemories sqrtZero noEmbedOracle 0 [cexMemory, cexMemory2] cexQuery 5).map
      (fun r => r.memory.id) = ["m1", "m2"] ∧
    calculateAdvancedContentSimilarity cexMemory.content cexMemory2.content
      (preprocessQuery cexQuery) > 0.85 ∧
    cexMemory.session_id = cexMemory2.session_id := by decide

/-- Witness for C7: an empty query against a two-memory store returns
the single most recent memory. -/
theorem searchSessionMemories_empty_query_spec_witness :
    (searchSessionMemories sqrtZero noEmbedOracle 0 [olderMemory, newerMemory] "" 1).map
      (·.memory) = (sortDescBy (·.created) [olderMemory, newerMemory]).take 1 :=
  (searchSessionMemories_empty_query_spec sqrtZero noEmbedOracle 0 [olderMemory, newerMemory]
    "" 1 (by decide) rfl).1

/-- C8 counterexample: content hitting no indicator at all is classified
`reflection` (the fold's initial accumulator), although the first-declared
category of the tied (all-zero) maximum is `discovery`. -/
theorem analyzeMemoryContent_category_cex :
    (analyzeMemoryContent "zzz").category = MemoryCategory.reflection ∧
    (∀ c ∈ categoryOrder, categoryHits (lowerStr "zzz") c = 0) ∧
    ¬(MemoryCategory.reflection = MemoryCategory.discovery) := by decide

/-- Witness for C9: two orderings of the same two-memory store yield the
same result list. -/
theorem searchSessionMemories_determinism_spec_witness :
    searchSessionMemories sqrtZero noEmbedOracle 0 [olderMemory, newerMemory] mainQuery 5 =
      searchSessionMemories sqrtZero noEmbedOracle 0 [newerMemory, olderMemory] mainQuery 5 :=
  searchSessionMemories_determinism_spec sqrtZero noEmbedOracle 0 [olderMemory, newerMemory]
    [newerMemory, olderMemory] mainQuery 5 (by decide) (by decide)

/-- C9 counterexample: the same query over the same stored collection
returns different scores at two different clock readings, so search is
not a function of query and storage alone. -/
theorem searchSessionMemories_determinism_cex :
    ¬(searchSessionMemories sqrtZero noEmbedOracle 0 [cexMemory] cexQuery 5 =
      searchSessionMemories sqrtZero noEmbedOracle 3456000000 [cexMemory] cexQuery 5) := by
  decide

/-- Witness for C10: with the word-character oracle the enhanced
clustering of the single-memory fixture under the all-word query
`"alpha"` succeeds, and the returned list partitions the input. -/
theorem clusterMemories_partition_spec_witness :
    List.Perm ((((clusterMemoriesEnhanced wordRegexCount logZero sqrtZero fmtEmpty 0
        [clusterFixture] "alpha").toOption.getD []).map (·.memories)).flatten)
      [clusterFixture] :=
  ((clusterMemories_partition_spec wordRegexCount logZero sqrtZero fmtEmpty 0 [clusterFixture]
      "alpha" (by decide)).1
    ((clusterMemoriesEnhanced wordRegexCount logZero sqrtZero fmtEmpty 0 [clusterFixture]
      "alpha").toOption.getD []) (by decide)).1

/-- C10 counterexample: the query term `"c++"` is interpolated into the
pass-1 `RegExp` unsanitized, so `clusterMemoriesEnhanced` throws instead
of returning clusters — even for a single input memory — while the
regex-free `clusterMemories` still returns its cluster list. -/
theorem clusterMemories_partition_cex :
    clusterMemoriesEnhanced wordRegexCount logZero sqrtZero fmtEmpty 0 [clusterFixture]
      "c++" = .error "Invalid regular expression" ∧
    clusterMemories logZero sqrtZero 0 [clusterFixture] "c++" ≠ [] := by decide

end TM
